import Mathlib

/-!
Verification of the FigVibe core (scene-graph normalizer, serializer registry,
shared style utilities and the HTML/Vue serializers) against its
natural-language specification.

Numbers of the host language are modelled as exact rationals (ℚ); the one
transcendental operation the code uses (Math.atan2, reached only in the
gradient-angle computation) is modelled over the reals.  Strings are Lean
strings; the decimal rendering a template literal performs on a number is
modelled by jsNum and friends below.
-/

set_option maxRecDepth 16000

/-! ### JS-number helpers -/

/-- JS Math.round: floor(x + 1/2). -/
def jsRound (q : ℚ) : ℤ := ⌊q + 1 / 2⌋

/-- Decimal digit characters of a natural number, most significant first.
The first argument is recursion fuel; `n + 1` is always enough for `n`. -/
def natStrAux : ℕ → ℕ → List Char
  | 0, _ => []
  | fuel + 1, n =>
    if n < 10 then [Nat.digitChar n]
    else natStrAux fuel (n / 10) ++ [Nat.digitChar (n % 10)]

/-- Decimal rendering of a natural number, as a JS template literal prints it. -/
def natStr (n : ℕ) : String := ⟨natStrAux (n + 1) n⟩

/-- Numeric value of a decimal digit list (inverse reading of `natStrAux`). -/
def digitsVal (l : List Char) : ℕ := l.foldl (fun v c => v * 10 + (c.toNat - 48)) 0

/-- Decimal rendering of an integer, as a JS template literal prints it. -/
def intStr (i : ℤ) : String :=
  if i < 0 then "-" ++ natStr i.natAbs else natStr i.natAbs

/-- Largest exponent `e ≤ fuel` with `p ^ e ∣ n` (fuel-bounded). -/
def factorExp : ℕ → ℕ → ℕ → ℕ
  | 0, _, _ => 0
  | fuel + 1, p, n => if n % p = 0 ∧ n ≠ 0 then factorExp fuel p (n / p) + 1 else 0

/-- `natStr` left-padded with zeros to `k` digits. -/
def padZeros (k : ℕ) (n : ℕ) : String :=
  let s := natStr n
  ⟨List.replicate (k - s.length) '0' ++ s.data⟩

/-- Decimal rendering of a rational, as a JS template literal prints the
corresponding number: integers print with no point, terminating decimals
print with their shortest expansion.  (A value whose denominator is not of
the form 2^a·5^b has no finite expansion; JS would print the shortest
round-trip representation of the nearest double, which this exact-arithmetic
model leaves as `num/den`.  No such value is produced in any claim.) -/
def jsNum (q : ℚ) : String :=
  if q.den = 1 then intStr q.num
  else
    let a := factorExp q.den 2 q.den
    let b := factorExp q.den 5 q.den
    if q.den = 2 ^ a * 5 ^ b then
      let k := max a b
      let digits := q.num.natAbs * 10 ^ k / q.den
      (if q.num < 0 then "-" else "") ++
        natStr (digits / 10 ^ k) ++ "." ++ padZeros k (digits % 10 ^ k)
    else intStr q.num ++ "/" ++ natStr q.den

/-- JS `x.toFixed(k)`: fixed-point rendering with `k` digits after the point,
rounding half away from zero. -/
def qToFixed (k : ℕ) (q : ℚ) : String :=
  let scaled : ℚ := q * (10 : ℚ) ^ k
  let r : ℤ := if 0 ≤ q then ⌊scaled + 1 / 2⌋ else -⌊-scaled + 1 / 2⌋
  let s := r.natAbs
  (if r < 0 then "-" else "") ++ natStr (s / 10 ^ k) ++ "." ++ padZeros k (s % 10 ^ k)

/-! ### JS-string helpers -/

/-- JS `String.prototype.toLowerCase` (ASCII range, the only one used). -/
def toLowerStr (s : String) : String := ⟨s.data.map Char.toLower⟩

/-- Does the second list occur as an initial segment of the first? -/
def leadMatch : List Char → List Char → Bool
  | _, [] => true
  | [], _ :: _ => false
  | a :: as, b :: bs => a = b && leadMatch as bs

/-- Does `needle` occur contiguously inside `hay`? -/
def containsSub : List Char → List Char → Bool
  | hay, needle =>
    leadMatch hay needle ||
      match hay with
      | [] => false
      | _ :: tl => containsSub tl needle

/-- JS `hay.includes(needle)`. -/
def strIncludes (hay needle : String) : Bool := containsSub hay.data needle.data

/-- JS truthiness of an optional string: absent and `""` are falsy. -/
def truthyStr : Option String → Option String
  | some s => if s = "" then none else some s
  | none => none

/-- `o || d` for an optional string operand (absent/empty are falsy). -/
def jsOrStr (o : Option String) (d : String) : String := (truthyStr o).getD d

/-- `o || d` for an optional numeric operand (absent and `0` are falsy). -/
def jsOrQ (o : Option ℚ) (d : ℚ) : ℚ :=
  match o with
  | some v => if v = 0 then d else v
  | none => d

/-- JS whitespace (the characters the code can actually meet). -/
def isWsChar (c : Char) : Bool := c = ' ' || c = '\n' || c = '\t' || c = '\r'

/-- JS `String.prototype.trim`. -/
def trimWs (s : String) : String :=
  ⟨(s.data.dropWhile isWsChar).reverse.dropWhile isWsChar |>.reverse⟩

/-- `"  ".repeat(n)` and similar. -/
def repeatStr (s : String) (n : ℕ) : String := ⟨(List.replicate n s.data).flatten⟩

/-! ### IR value objects (src/core/figma-ir.ts) -/

/-- IR color: integer 0–255 channels plus raw float alpha (figma-ir.ts `FigmaColor`). -/
structure FigmaColor where
  r : ℤ
  g : ℤ
  b : ℤ
  a : ℚ
deriving DecidableEq

/-- IR gradient stop (figma-ir.ts `FigmaGradientStop`). -/
structure FigmaGradientStop where
  position : ℚ
  color : FigmaColor
deriving DecidableEq

/-- IR gradient (figma-ir.ts `FigmaGradient`). -/
structure FigmaGradient where
  gtype : String
  stops : List FigmaGradientStop
  transform : Option (List (List ℚ))
deriving DecidableEq

/-- IR fill (figma-ir.ts `FigmaFill` union).  `color` is optional because
`fillToCss` guards `if (!color)` even though the schema declares it required. -/
inductive FigmaFill where
  | solid (color : Option FigmaColor) (opacity : Option ℚ)
  | gradient (gradient : FigmaGradient) (opacity : Option ℚ)
  | image (imageHash : Option String) (scaleMode : String) (opacity : Option ℚ)
deriving DecidableEq

/-- IR stroke (figma-ir.ts `FigmaStroke`). -/
structure FigmaStroke where
  stype : String
  color : Option FigmaColor
  gradient : Option FigmaGradient
  weight : ℚ
  align : String
  opacity : Option ℚ
deriving DecidableEq

/-- IR effect (figma-ir.ts `FigmaEffect`).  `visible` is the raw copy of the
input flag and may be absent (undefined). -/
structure FigmaEffect where
  etype : String
  visible : Option Bool
  radius : ℚ
  color : Option FigmaColor
  offset : Option (ℚ × ℚ)
  spread : Option ℚ
deriving DecidableEq

/-- IR alignment constraints (figma-ir.ts `FigmaConstraints`). -/
structure FigmaConstraints where
  horizontal : String
  vertical : String
deriving DecidableEq

/-- IR corner radius (figma-ir.ts `FigmaCornerRadius`). -/
structure FigmaCornerRadius where
  all : Option ℚ := none
  topLeft : Option ℚ := none
  topRight : Option ℚ := none
  bottomLeft : Option ℚ := none
  bottomRight : Option ℚ := none
deriving DecidableEq

/-- IR padding record (part of figma-ir.ts `FigmaLayoutProps`). -/
structure FigmaPadding where
  top : ℚ
  right : ℚ
  bottom : ℚ
  left : ℚ
deriving DecidableEq

/-- IR auto-layout descriptor (figma-ir.ts `FigmaLayoutProps`). -/
structure FigmaLayoutProps where
  mode : String
  primaryAxisSizingMode : String
  counterAxisSizingMode : String
  primaryAxisAlignItems : String
  counterAxisAlignItems : String
  itemSpacing : ℚ
  padding : FigmaPadding
deriving DecidableEq

/-- IR line height: a pixel number or the string `"auto"`. -/
inductive IRLineHeight where
  | px (v : ℚ)
  | auto
deriving DecidableEq

/-- IR text style (figma-ir.ts `FigmaTextStyle`). -/
structure FigmaTextStyle where
  fontFamily : String
  fontWeight : ℕ
  fontSize : ℚ
  lineHeight : IRLineHeight
  letterSpacing : ℚ
  textAlignHorizontal : String
  textAlignVertical : String
  textDecoration : String
  textCase : String
deriving DecidableEq

/-- IR base-node record (figma-ir.ts `FigmaBaseNode`).  Export settings are
serializable items, modelled as strings. -/
structure IRBase where
  id : String
  name : String
  type : String
  visible : Bool
  locked : Bool
  x : ℚ
  y : ℚ
  width : ℚ
  height : ℚ
  rotation : ℚ
  opacity : ℚ
  fills : List FigmaFill
  strokes : List FigmaStroke
  effects : List FigmaEffect
  constraints : FigmaConstraints
  cornerRadius : FigmaCornerRadius
  blendMode : String
  exportSettings : List String
deriving DecidableEq

/-- Variant-specific payload of an IR node.  `baseOnly` is the shape produced
when the source returns a bare `normalizeBaseNode` result cast to
`FigmaIRNode` (depth cutoff, unknown node kinds, per-child fallbacks):
such an object carries no variant fields and no children. -/
inductive IRExtra where
  | baseOnly
  | frame (layoutProps : FigmaLayoutProps) (clipsContent : Bool) (background : List FigmaFill)
  | text (characters : String) (textStyle : FigmaTextStyle)
  | vector (vectorData : Option String)
  | group
deriving DecidableEq

/-- IR node (figma-ir.ts `FigmaIRNode` union).  Only frame-family and group
variants carry children in the source; the other variants always have `[]`
here. -/
inductive FigmaIRNode where
  | mk (base : IRBase) (extra : IRExtra) (children : List FigmaIRNode)

/-- The base record of an IR node. -/
def FigmaIRNode.base : FigmaIRNode → IRBase
  | .mk b _ _ => b

/-- The variant payload of an IR node. -/
def FigmaIRNode.extra : FigmaIRNode → IRExtra
  | .mk _ e _ => e

/-- The children list of an IR node. -/
def FigmaIRNode.children : FigmaIRNode → List FigmaIRNode
  | .mk _ _ cs => cs

/-- The `name` field of an IR node. -/
def FigmaIRNode.name (n : FigmaIRNode) : String := n.base.name

/-! ### Raw scene-graph input model (the normalizer's input, §normalise.ts)

The host scene graph is structurally heterogeneous; every guarded access in
the source (`"x" in node`, truthiness tests) corresponds to an `Option`
field here.  Fields the source reads without a guard are required: this is
the well-typed input class on which the source functions are total (the
separate `SceneValue` model below additionally lets `type` be absent, which
is what claim C1 needs). -/

/-- Raw float color of the host API (channels 0–1). -/
structure RGBA where
  r : ℚ
  g : ℚ
  b : ℚ
  a : ℚ

/-- Raw gradient stop: the source guards both `stop` itself and its fields. -/
structure RawGradientStop where
  position : Option ℚ
  color : Option RGBA

/-- Raw paint (host `Paint`).  `color` is read unguarded in the SOLID branch,
so it is required on this well-typed input class. -/
structure RawPaint where
  ptype : String
  visible : Option Bool
  color : RGBA
  opacity : Option ℚ
  gradientStops : Option (List (Option RawGradientStop))
  gradientTransform : Option (List (List ℚ))
  imageHash : Option String
  scaleMode : Option String

/-- Raw effect (host `Effect`).  `color` is read unguarded in the shadow
branches, so it is required on this well-typed input class. -/
structure RawEffect where
  etype : String
  visible : Option Bool
  radius : ℚ
  color : RGBA
  offset : Option (ℚ × ℚ)
  spread : Option ℚ

/-- Raw constraints: both axes are read unguarded once present. -/
structure RawConstraints where
  horizontal : String
  vertical : String

/-- Raw `fontName` object (family/style may be absent). -/
structure RawFontName where
  family : Option String
  style : Option String

/-- Raw `lineHeight`: the host hands either an object with a `value` or a
plain number (or nothing). -/
inductive RawLineHeight where
  | obj (value : Option ℚ)
  | num (v : ℚ)

/-- Raw `letterSpacing` object. -/
structure RawLetterSpacing where
  value : Option ℚ

/-- The per-node property bag of a raw scene node (everything except the
`type` discriminator and the children list). -/
structure SceneProps where
  id : String
  name : String
  visible : Bool
  locked : Option Bool := none
  x : Option ℚ := none
  y : Option ℚ := none
  width : Option ℚ := none
  height : Option ℚ := none
  rotation : Option ℚ := none
  opacity : Option ℚ := none
  fills : Option (List RawPaint) := none
  strokes : Option (List RawPaint) := none
  strokeWeight : Option ℚ := none
  strokeAlign : Option String := none
  effects : Option (List RawEffect) := none
  constraints : Option RawConstraints := none
  cornerRadius : Option ℚ := none
  topLeftRadius : Option ℚ := none
  topRightRadius : Option ℚ := none
  bottomLeftRadius : Option ℚ := none
  bottomRightRadius : Option ℚ := none
  blendMode : Option String := none
  exportSettings : Option (List String) := none
  layoutMode : Option String := none
  primaryAxisSizingMode : Option String := none
  counterAxisSizingMode : Option String := none
  primaryAxisAlignItems : Option String := none
  counterAxisAlignItems : Option String := none
  itemSpacing : Option ℚ := none
  paddingTop : Option ℚ := none
  paddingRight : Option ℚ := none
  paddingBottom : Option ℚ := none
  paddingLeft : Option ℚ := none
  clipsContent : Option Bool := none
  backgrounds : Option (List RawPaint) := none
  characters : String := ""
  fontName : Option RawFontName := none
  fontSize : Option ℚ := none
  lineHeight : Option RawLineHeight := none
  letterSpacing : Option RawLetterSpacing := none
  textAlignHorizontal : Option String := none
  textAlignVertical : Option String := none
  textDecoration : Option String := none
  textCase : Option String := none
  vectorPaths : Option String := none

/-- A raw scene node: `type` string, property bag, optional children list. -/
inductive SceneNode where
  | mk (nodeType : String) (props : SceneProps) (children : Option (List SceneNode))

/-- The `type` string of a raw scene node. -/
def SceneNode.nodeType : SceneNode → String
  | .mk t _ _ => t

/-- The property bag of a raw scene node. -/
def SceneNode.props : SceneNode → SceneProps
  | .mk _ p _ => p

/-- The raw children list of a scene node (if the property is present). -/
def SceneNode.childList : SceneNode → Option (List SceneNode)
  | .mk _ _ cs? => cs?

/-! ### The normalizer (src/core/normalise.ts), pure well-typed model -/

/-- normalise.ts `safeStringify`: on this model input strings are already
serialized vector-path data, and serialization cannot fail, so the
function returns its input (the catch branch is unreachable). -/
def safeStringify (s : String) : Option String := some s

/-- normalise.ts `safeCopyArray`: on well-typed input every row is a number
array, the copy is the identity, and `JSON.stringify` cannot fail. -/
def safeCopyArray (arr : Option (List (List ℚ))) : Option (List (List ℚ)) := arr

/-- normalise.ts `safeSerializeArray`: every item of the model is
serializable, so the filter keeps everything. -/
def safeSerializeArray (arr : List String) : List String := arr

/-- normalise.ts `normalizeColorWithOpacity`. -/
def normalizeColorWithOpacity (color : RGBA) : FigmaColor :=
  { r := jsRound (color.r * 255)
  , g := jsRound (color.g * 255)
  , b := jsRound (color.b * 255)
  , a := color.a }

/-- The gradient-stop mapping shared by `normalizeFills`/`normalizeStrokes`:
`stop && typeof stop.position === "number" ? stop.position : 0`, and the
guarded color with the raw black default. -/
def normalizeStop (stop : Option RawGradientStop) : FigmaGradientStop :=
  { position :=
      match stop with
      | some s => s.position.getD 0
      | none => 0
  , color :=
      match stop with
      | some s =>
        match s.color with
        | some c => normalizeColorWithOpacity c
        | none => ⟨0, 0, 0, 1⟩
      | none => ⟨0, 0, 0, 1⟩ }

/-- `fill.type.toLowerCase().replace("gradient_", "")` (first occurrence). -/
def gradTypeName (t : String) : String :=
  let low := (toLowerStr t).data
  let pat := "gradient_".data
  let rec strip : List Char → List Char
    | [] => []
    | c :: tl => if leadMatch (c :: tl) pat then (c :: tl).drop pat.length else c :: strip tl
  ⟨strip low⟩

/-- The gradient payload built in the GRADIENT_* branches. -/
def normalizeGradient (ptype : String) (stops : Option (List (Option RawGradientStop)))
    (transform : Option (List (List ℚ))) : FigmaGradient :=
  { gtype := gradTypeName ptype
  , stops :=
      match stops with
      | some l => l.map normalizeStop
      | none => []
  , transform := safeCopyArray transform }

/-- normalise.ts `normalizeFills`.  `none` stands for an absent, mixed or
non-array `fills` value, which the source maps to `[]`. -/
def normalizeFills (fills : Option (List RawPaint)) : List FigmaFill :=
  match fills with
  | none => []
  | some l =>
    (l.filter (fun fill => fill.visible ≠ some false)).map (fun fill =>
      match fill.ptype with
      | "SOLID" => .solid (some (normalizeColorWithOpacity fill.color)) fill.opacity
      | "GRADIENT_LINEAR" =>
        .gradient (normalizeGradient fill.ptype fill.gradientStops fill.gradientTransform) fill.opacity
      | "GRADIENT_RADIAL" =>
        .gradient (normalizeGradient fill.ptype fill.gradientStops fill.gradientTransform) fill.opacity
      | "GRADIENT_ANGULAR" =>
        .gradient (normalizeGradient fill.ptype fill.gradientStops fill.gradientTransform) fill.opacity
      | "GRADIENT_DIAMOND" =>
        .gradient (normalizeGradient fill.ptype fill.gradientStops fill.gradientTransform) fill.opacity
      | "IMAGE" =>
        .image fill.imageHash
          (match fill.scaleMode with
           | some m => toLowerStr m
           | none => "fill")
          fill.opacity
      | _ => .solid (some ⟨0, 0, 0, 1⟩) none)

/-- normalise.ts `normalizeStrokes`. -/
def normalizeStrokes (p : SceneProps) : List FigmaStroke :=
  match p.strokes with
  | none => []
  | some l =>
    let strokeWeight := p.strokeWeight.getD 1
    let strokeAlign := jsOrStr p.strokeAlign "inside"
    (l.filter (fun stroke => stroke.visible ≠ some false)).map (fun stroke =>
      match stroke.ptype with
      | "SOLID" =>
        { stype := "solid", color := some (normalizeColorWithOpacity stroke.color)
        , gradient := none, weight := strokeWeight
        , align := toLowerStr strokeAlign, opacity := stroke.opacity }
      | "GRADIENT_LINEAR" =>
        { stype := "gradient", color := none
        , gradient := some (normalizeGradient stroke.ptype stroke.gradientStops stroke.gradientTransform)
        , weight := strokeWeight, align := toLowerStr strokeAlign, opacity := stroke.opacity }
      | "GRADIENT_RADIAL" =>
        { stype := "gradient", color := none
        , gradient := some (normalizeGradient stroke.ptype stroke.gradientStops stroke.gradientTransform)
        , weight := strokeWeight, align := toLowerStr strokeAlign, opacity := stroke.opacity }
      | "GRADIENT_ANGULAR" =>
        { stype := "gradient", color := none
        , gradient := some (normalizeGradient stroke.ptype stroke.gradientStops stroke.gradientTransform)
        , weight := strokeWeight, align := toLowerStr strokeAlign, opacity := stroke.opacity }
      | "GRADIENT_DIAMOND" =>
        { stype := "gradient", color := none
        , gradient := some (normalizeGradient stroke.ptype stroke.gradientStops stroke.gradientTransform)
        , weight := strokeWeight, align := toLowerStr strokeAlign, opacity := stroke.opacity }
      | _ =>
        { stype := "solid", color := some ⟨0, 0, 0, 1⟩
        , gradient := none, weight := strokeWeight
        , align := toLowerStr strokeAlign, opacity := none })

/-- normalise.ts `normalizeEffects`: effects whose `visible` flag is `false`
are dropped by the filter; the rest are converted, the raw `visible` flag
copied through. -/
def normalizeEffects (effects : List RawEffect) : List FigmaEffect :=
  (effects.filter (fun effect => effect.visible ≠ some false)).map (fun effect =>
    match effect.etype with
    | "DROP_SHADOW" =>
      { etype := "drop-shadow", visible := effect.visible, radius := effect.radius
      , color := some (normalizeColorWithOpacity effect.color)
      , offset := effect.offset, spread := effect.spread }
    | "INNER_SHADOW" =>
      { etype := "inner-shadow", visible := effect.visible, radius := effect.radius
      , color := some (normalizeColorWithOpacity effect.color)
      , offset := effect.offset, spread := effect.spread }
    | "LAYER_BLUR" =>
      { etype := "blur", visible := effect.visible, radius := effect.radius
      , color := none, offset := none, spread := none }
    | "BACKGROUND_BLUR" =>
      { etype := "background-blur", visible := effect.visible, radius := effect.radius
      , color := none, offset := none, spread := none }
    | _ =>
      { etype := "blur", visible := effect.visible, radius := 0
      , color := none, offset := none, spread := none })

/-- normalise.ts `normalizeConstraints`. -/
def normalizeConstraints (c : Option RawConstraints) : FigmaConstraints :=
  match c with
  | none => { horizontal := "left", vertical := "top" }
  | some c => { horizontal := toLowerStr c.horizontal, vertical := toLowerStr c.vertical }

/-- normalise.ts `normalizeCornerRadius`. -/
def normalizeCornerRadius (p : SceneProps) : FigmaCornerRadius :=
  { all := p.cornerRadius
  , topLeft := p.topLeftRadius
  , topRight := p.topRightRadius
  , bottomLeft := p.bottomLeftRadius
  , bottomRight := p.bottomRightRadius }

/-- normalise.ts `normalizeLayoutProps`. -/
def normalizeLayoutProps (p : SceneProps) : FigmaLayoutProps :=
  { mode := toLowerStr (jsOrStr p.layoutMode "none")
  , primaryAxisSizingMode := toLowerStr (jsOrStr p.primaryAxisSizingMode "fixed")
  , counterAxisSizingMode := toLowerStr (jsOrStr p.counterAxisSizingMode "fixed")
  , primaryAxisAlignItems := toLowerStr (jsOrStr p.primaryAxisAlignItems "min")
  , counterAxisAlignItems := toLowerStr (jsOrStr p.counterAxisAlignItems "min")
  , itemSpacing := jsOrQ p.itemSpacing 0
  , padding :=
    { top := jsOrQ p.paddingTop 0
    , right := jsOrQ p.paddingRight 0
    , bottom := jsOrQ p.paddingBottom 0
    , left := jsOrQ p.paddingLeft 0 } }

/-- `parseInt(fontName.style.replace(/\D/g, "")) || 400`. -/
def parseFontWeight (style : Option String) : ℕ :=
  let digitsSrc :=
    match truthyStr style with
    | some s => s
    | none => "400"
  let digits := digitsSrc.data.filter Char.isDigit
  if digits.isEmpty then 400
  else
    let n := digits.foldl (fun v c => v * 10 + (c.toNat - 48)) 0
    if n = 0 then 400 else n

/-- normalise.ts `normalizeTextStyle`. -/
def normalizeTextStyle (p : SceneProps) : FigmaTextStyle :=
  { fontFamily :=
      match p.fontName with
      | some fn => jsOrStr fn.family "Inter"
      | none => "Inter"
  , fontWeight :=
      parseFontWeight (match p.fontName with
        | some fn => fn.style
        | none => none)
  , fontSize := jsOrQ p.fontSize 16
  , lineHeight :=
      match p.lineHeight with
      | some (.obj v) =>
        match v with
        | some q => if q = 0 then .auto else .px q
        | none => .auto
      | some (.num q) => if q = 0 then .auto else .px q
      | none => .auto
  , letterSpacing :=
      match p.letterSpacing with
      | some ls =>
        match ls.value with
        | some v => if v = 0 then 0 else v
        | none => 0
      | none => 0
  , textAlignHorizontal := toLowerStr (jsOrStr p.textAlignHorizontal "left")
  , textAlignVertical := toLowerStr (jsOrStr p.textAlignVertical "top")
  , textDecoration := toLowerStr (jsOrStr p.textDecoration "none")
  , textCase := toLowerStr (jsOrStr p.textCase "original") }

/-- normalise.ts `normalizeBaseNode`. -/
def normalizeBaseNode (nodeType : String) (p : SceneProps) : IRBase :=
  { id := p.id
  , name := p.name
  , type := toLowerStr nodeType
  , visible := p.visible
  , locked := p.locked.getD false
  , x := p.x.getD 0
  , y := p.y.getD 0
  , width := p.width.getD 0
  , height := p.height.getD 0
  , rotation := p.rotation.getD 0
  , opacity := p.opacity.getD 1
  , fills := normalizeFills p.fills
  , strokes := normalizeStrokes p
  , effects :=
      match p.effects with
      | some es => normalizeEffects es
      | none => []
  , constraints := normalizeConstraints p.constraints
  , cornerRadius := normalizeCornerRadius p
  , blendMode := p.blendMode.getD "normal"
  , exportSettings :=
      match p.exportSettings with
      | some l => safeSerializeArray l
      | none => [] }

/-- normalise.ts `MAX_RECURSION_DEPTH`. -/
def MAX_RECURSION_DEPTH : ℕ := 100

/-- normalise.ts `MAX_CHILDREN_COUNT`. -/
def MAX_CHILDREN_COUNT : ℕ := 1000

/-- A structural diagnostic recorded via `console.warn` during
normalization (truncation events are warnings, never errors). -/
inductive Diag where
  | depthExceeded (name : String)
  | tooManyChildren (name : String) (count : ℕ)
deriving DecidableEq

mutual

/-- normalise.ts `normalizeNodeWithDepth` (paired with the `console.warn`
diagnostics it emits).  On this pure well-typed model the per-child
`try/catch` and the children-level `try/catch` never fire. -/
def normalizeNodeWithDepth : SceneNode → ℕ → FigmaIRNode × List Diag
  | .mk nodeType p cs?, depth =>
    if depth > MAX_RECURSION_DEPTH then
      (.mk (normalizeBaseNode nodeType p) .baseOnly [], [.depthExceeded p.name])
    else
      let base := normalizeBaseNode nodeType p
      if nodeType = "FRAME" ∨ nodeType = "COMPONENT" ∨ nodeType = "INSTANCE" then
        let pairs :=
          match cs? with
          | some cs => normalizeChildren cs MAX_CHILDREN_COUNT (depth + 1)
          | none => []
        let warn :=
          match cs? with
          | some cs =>
            if cs.length > MAX_CHILDREN_COUNT then [Diag.tooManyChildren p.name cs.length] else []
          | none => []
        (.mk base
          (.frame (normalizeLayoutProps p) (p.clipsContent.getD false)
            (match p.backgrounds with
             | some bg => normalizeFills (some bg)
             | none => []))
          (pairs.map (fun pr => pr.1)),
         warn ++ pairs.foldr (fun pr acc => pr.2 ++ acc) [])
      else if nodeType = "TEXT" then
        (.mk base (.text p.characters (normalizeTextStyle p)) [], [])
      else if nodeType = "VECTOR" ∨ nodeType = "STAR" ∨ nodeType = "POLYGON" ∨
          nodeType = "ELLIPSE" ∨ nodeType = "RECTANGLE" then
        (.mk base
          (.vector (match p.vectorPaths with
            | some s => safeStringify s
            | none => none)) [], [])
      else if nodeType = "GROUP" then
        let pairs :=
          match cs? with
          | some cs => normalizeChildren cs MAX_CHILDREN_COUNT (depth + 1)
          | none => []
        let warn :=
          match cs? with
          | some cs =>
            if cs.length > MAX_CHILDREN_COUNT then [Diag.tooManyChildren p.name cs.length] else []
          | none => []
        (.mk base .group (pairs.map (fun pr => pr.1)),
         warn ++ pairs.foldr (fun pr acc => pr.2 ++ acc) [])
      else
        (.mk { base with type := "vector" } .baseOnly [], [])

/-- `children.slice(0, MAX_CHILDREN_COUNT).map(child =>
normalizeNodeWithDepth(child, depth + 1))`: the slice is rendered as a
processing budget that runs out after `b` children. -/
def normalizeChildren : List SceneNode → ℕ → ℕ → List (FigmaIRNode × List Diag)
  | [], _, _ => []
  | _ :: _, 0, _ => []
  | c :: cs, b + 1, d => normalizeNodeWithDepth c d :: normalizeChildren cs b d

end

/-- normalise.ts `sanitizeIRNode`: a `JSON.stringify`/`JSON.parse`
round-trip.  Every value of the pure IR model is a finite tree of plain
serializable data, so the round-trip is the identity and the fallback
branch of the source is unreachable here. -/
def sanitizeIRNode (node : FigmaIRNode) : FigmaIRNode := node

/-- normalise.ts `normalizeNode` (top-level entry), paired with the
diagnostics of the traversal.  On the pure model the `catch` branch is
unreachable. -/
def normalizeNode (node : SceneNode) : FigmaIRNode × List Diag :=
  let r := normalizeNodeWithDepth node 0
  (sanitizeIRNode r.1, r.2)

/-! ### JS-semantics model of the normalizer entry (for claim C1)

The spec requires the normalizer to treat every input field as optional.
`SceneValue` is a scene node whose `type` property may be absent
(`undefined`); otherwise its property values are well typed, which is
enough to trace the source faithfully on such inputs.  Field accesses that
can throw are modelled in `Except`: `node.type.toLowerCase()` throws a
`TypeError` when `type` is `undefined`. -/

/-- A scene node whose `type` property may be absent. -/
inductive SceneValue where
  | mk (nodeType : Option String) (props : SceneProps) (children : Option (List SceneValue))

/-- The optional `type` property. -/
def SceneValue.nodeType : SceneValue → Option String
  | .mk t _ _ => t

/-- The property bag. -/
def SceneValue.props : SceneValue → SceneProps
  | .mk _ p _ => p

/-- normalise.ts `normalizeBaseNode` under JS semantics: the unguarded
`node.type.toLowerCase()` throws when `type` is `undefined`; all other
accesses are guarded or well typed on this input class. -/
def normalizeBaseNodeJs (t? : Option String) (p : SceneProps) : Except String IRBase :=
  match t? with
  | none => .error "TypeError: Cannot read properties of undefined (reading toLowerCase)"
  | some t => .ok (normalizeBaseNode t p)

mutual

/-- normalise.ts `normalizeNodeWithDepth` under JS semantics.  A `switch` on
an `undefined` discriminant takes the `default` branch.  The per-child
`try/catch` substitutes a vector-typed fallback built by a second
`normalizeBaseNode` call (which may itself throw); the surrounding
children-level `try/catch` absorbs that second throw into `children = []`. -/
def normalizeNodeWithDepthJs : SceneValue → ℕ → Except String (FigmaIRNode × List Diag)
  | .mk t? p cs?, depth =>
    if depth > MAX_RECURSION_DEPTH then
      (normalizeBaseNodeJs t? p).map (fun b => (.mk b .baseOnly [], [Diag.depthExceeded p.name]))
    else
      match normalizeBaseNodeJs t? p with
      | .error e => .error e
      | .ok base =>
        let t := t?.getD ""
        if t = "FRAME" ∨ t = "COMPONENT" ∨ t = "INSTANCE" then
          let pairs :=
            match cs? with
            | some cs => normalizeChildrenJs cs MAX_CHILDREN_COUNT (depth + 1)
            | none => .ok []
          let pairsOk :=
            match pairs with
            | .ok l => l
            | .error _ => []
          let warn :=
            match cs? with
            | some cs =>
              if cs.length > MAX_CHILDREN_COUNT then [Diag.tooManyChildren p.name cs.length] else []
            | none => []
          .ok (.mk base
            (.frame (normalizeLayoutProps p) (p.clipsContent.getD false)
              (match p.backgrounds with
               | some bg => normalizeFills (some bg)
               | none => []))
            (pairsOk.map (fun pr => pr.1)),
           warn ++ pairsOk.foldr (fun pr acc => pr.2 ++ acc) [])
        else if t = "TEXT" then
          .ok (.mk base (.text p.characters (normalizeTextStyle p)) [], [])
        else if t = "VECTOR" ∨ t = "STAR" ∨ t = "POLYGON" ∨
            t = "ELLIPSE" ∨ t = "RECTANGLE" then
          .ok (.mk base
            (.vector (match p.vectorPaths with
              | some s => safeStringify s
              | none => none)) [], [])
        else if t = "GROUP" then
          let pairs :=
            match cs? with
            | some cs => normalizeChildrenJs cs MAX_CHILDREN_COUNT (depth + 1)
            | none => .ok []
          let pairsOk :=
            match pairs with
            | .ok l => l
            | .error _ => []
          let warn :=
            match cs? with
            | some cs =>
              if cs.length > MAX_CHILDREN_COUNT then [Diag.tooManyChildren p.name cs.length] else []
            | none => []
          .ok (.mk base .group (pairsOk.map (fun pr => pr.1)),
           warn ++ pairsOk.foldr (fun pr acc => pr.2 ++ acc) [])
        else
          .ok (.mk { base with type := "vector" } .baseOnly [], [])

/-- The children mapping with its per-child `try/catch`: a child whose
normalization throws is replaced by a vector-typed `normalizeBaseNode`
fallback — but building that fallback re-reads `child.type` and can throw
again, which escapes the per-child handler (and is then absorbed by the
children-level handler, modelled by the caller). -/
def normalizeChildrenJs : List SceneValue → ℕ → ℕ → Except String (List (FigmaIRNode × List Diag))
  | [], _, _ => .ok []
  | _ :: _, 0, _ => .ok []
  | c :: cs, b + 1, d =>
    let one : Except String (FigmaIRNode × List Diag) :=
      match normalizeNodeWithDepthJs c d with
      | .ok pr => .ok pr
      | .error _ =>
        (normalizeBaseNodeJs c.nodeType c.props).map
          (fun b => ((.mk { b with type := "vector" } .baseOnly [] : FigmaIRNode), ([] : List Diag)))
    match one with
    | .error e => .error e
    | .ok pr =>
      match normalizeChildrenJs cs b d with
      | .error e => .error e
      | .ok rest => .ok (pr :: rest)

end

/-- normalise.ts `normalizeNode` under JS semantics: the `try` body is the
depth-0 traversal plus sanitization; the `catch` handler builds a
vector-typed fallback with a second `normalizeBaseNode` call, whose own
throw escapes to the caller. -/
def normalizeNodeJs (node : SceneValue) : Except String (FigmaIRNode × List Diag) :=
  match normalizeNodeWithDepthJs node 0 with
  | .ok r => .ok (sanitizeIRNode r.1, r.2)
  | .error _ =>
    (normalizeBaseNodeJs node.nodeType node.props).map
      (fun b => (sanitizeIRNode (.mk { b with type := "vector" } .baseOnly []), ([] : List Diag)))

/-! ### Tree measures and lookups used by the bound claims -/

mutual

/-- Depth of a raw scene tree (leaf = 0, counted through the children
property regardless of node kind). -/
def sgDepth : SceneNode → ℕ
  | .mk _ _ none => 0
  | .mk _ _ (some cs) => sgDepthList cs

/-- `sgDepth` over a children list: 1 + the deepest child. -/
def sgDepthList : List SceneNode → ℕ
  | [] => 0
  | c :: cs => max (sgDepth c + 1) (sgDepthList cs)

end

mutual

/-- Depth of an IR tree (leaf = 0). -/
def irDepth : FigmaIRNode → ℕ
  | .mk _ _ cs => irDepthList cs

/-- `irDepth` over a children list. -/
def irDepthList : List FigmaIRNode → ℕ
  | [] => 0
  | c :: cs => max (irDepth c + 1) (irDepthList cs)

end

/-- Is the raw `type` string one of the container kinds whose branch
recurses into children? -/
def isContainerType (t : String) : Bool :=
  t = "FRAME" || t = "COMPONENT" || t = "INSTANCE" || t = "GROUP"

mutual

/-- Well-formedness for the bound claims: every node with a non-empty
children list is of a container kind, and no node has more than
`MAX_CHILDREN_COUNT` children. -/
def goodTree : SceneNode → Bool
  | .mk t _ cs? =>
    match cs? with
    | none => true
    | some cs =>
      decide (cs.length ≤ MAX_CHILDREN_COUNT) && (cs.isEmpty || isContainerType t) &&
        goodTreeList cs

/-- `goodTree` over a children list. -/
def goodTreeList : List SceneNode → Bool
  | [] => true
  | c :: cs => goodTree c && goodTreeList cs

end

/-- Node lookup in a raw scene tree along a list of child indices. -/
def nodeAt : SceneNode → List ℕ → Option SceneNode
  | n, [] => some n
  | .mk _ _ none, _ :: _ => none
  | .mk _ _ (some cs), i :: p =>
    match cs.get? i with
    | some c => nodeAt c p
    | none => none

/-- Node lookup in an IR tree along a list of child indices. -/
def irNodeAt : FigmaIRNode → List ℕ → Option FigmaIRNode
  | n, [] => some n
  | .mk _ _ cs, i :: p =>
    match cs.get? i with
    | some c => irNodeAt c p
    | none => none

/-- The base-only leaf the depth cutoff produces for a scene node. -/
def cutoffLeaf (n : SceneNode) : FigmaIRNode :=
  .mk (normalizeBaseNode n.nodeType n.props) .baseOnly []

/-! ### Shared serializer utilities (src/serializers/utils.ts) -/

/-- JS `Math.atan2(y, x)` over the reals (the IEEE special cases the code can
reach with rational inputs). -/
noncomputable def jsAtan2 (y x : ℝ) : ℝ :=
  if 0 < x then Real.arctan (y / x)
  else if x < 0 ∧ 0 ≤ y then Real.arctan (y / x) + Real.pi
  else if x < 0 then Real.arctan (y / x) - Real.pi
  else if 0 < y then Real.pi / 2
  else if y < 0 then -(Real.pi / 2)
  else 0

/-- JS `Math.round` over the reals. -/
noncomputable def jsRoundR (x : ℝ) : ℤ := ⌊x + 1 / 2⌋

/-- utils.ts `rgbaToString`. -/
def rgbaToString (color : FigmaColor) : String :=
  if color.a = 1 then
    "rgb(" ++ intStr color.r ++ ", " ++ intStr color.g ++ ", " ++ intStr color.b ++ ")"
  else
    "rgba(" ++ intStr color.r ++ ", " ++ intStr color.g ++ ", " ++ intStr color.b ++ ", " ++
      jsNum color.a ++ ")"

/-- Base64 alphabet, for the `btoa` call in the image branch. -/
def b64Char (n : ℕ) : Char :=
  "ABCDEFGHIJKLMNOPQRSTUVWXYZabcdefghijklmnopqrstuvwxyz0123456789+/".data.getD n '='

/-- JS `btoa` on an ASCII string. -/
def btoa (s : String) : String :=
  let rec go : List Char → List Char
    | [] => []
    | [a] =>
      let n := a.toNat * 65536
      [b64Char (n / 262144), b64Char (n / 4096 % 64), '=', '=']
    | [a, b] =>
      let n := a.toNat * 65536 + b.toNat * 256
      [b64Char (n / 262144), b64Char (n / 4096 % 64), b64Char (n / 64 % 64), '=']
    | a :: b :: c :: tl =>
      let n := a.toNat * 65536 + b.toNat * 256 + c.toNat
      b64Char (n / 262144) :: b64Char (n / 4096 % 64) :: b64Char (n / 64 % 64) ::
        b64Char (n % 64) :: go tl
  ⟨go s.data⟩

/-- The placeholder SVG the image branch embeds. -/
def placeholderSvg : String :=
  "<svg xmlns=\"http://www.w3.org/2000/svg\" width=\"1\" height=\"1\"><rect width=\"1\" height=\"1\" fill=\"#f0f0f0\"/></svg>"

/-- The gradient-stop string of utils.ts `fillToCss`:
`rgba(r, g, b, adjustedAlpha) P%` with the fill opacity folded into the
stop alpha when the opacity is below 1. -/
def gradStopCss (opacity : ℚ) (stop : FigmaGradientStop) : String :=
  let color := stop.color
  let adjustedAlpha := if opacity < 1 then color.a * opacity else color.a
  "rgba(" ++ intStr color.r ++ ", " ++ intStr color.g ++ ", " ++ intStr color.b ++ ", " ++
    jsNum adjustedAlpha ++ ") " ++ intStr (jsRound (stop.position * 100)) ++ "%"

/-- The gradient-angle computation of utils.ts `fillToCss`: starts at
`"90deg"` and, when a transform matrix with at least two rows is present,
becomes `atan2(b, a)` of the first row converted to degrees and rounded. -/
noncomputable def gradientAngle (transform : Option (List (List ℚ))) : String :=
  match transform with
  | some matrix =>
    if matrix.length ≥ 2 then
      let row0 := (matrix.get? 0).getD []
      let a : ℚ := (row0.get? 0).getD 1
      let b : ℚ := (row0.get? 1).getD 0
      intStr (jsRoundR (jsAtan2 (b : ℝ) (a : ℝ) * 180 / Real.pi)) ++ "deg"
    else "90deg"
  | none => "90deg"

/-- utils.ts `fillToCss` (current version, lines 31–92). -/
noncomputable def fillToCss (fill : FigmaFill) : String :=
  match fill with
  | .solid color? opacity? =>
    let opacity := opacity?.getD 1
    match color? with
    | none => "transparent"
    | some color =>
      if opacity < 1 then
        "rgba(" ++ intStr color.r ++ ", " ++ intStr color.g ++ ", " ++ intStr color.b ++ ", " ++
          jsNum (color.a * opacity) ++ ")"
      else rgbaToString color
  | .gradient gradient opacity? =>
    let opacity := opacity?.getD 1
    if gradient.stops = [] then "transparent"
    else
      let stops := String.intercalate ", " (gradient.stops.map (gradStopCss opacity))
      let angle := gradientAngle gradient.transform
      if gradient.gtype = "linear" then
        "linear-gradient(" ++ angle ++ ", " ++ stops ++ ")"
      else if gradient.gtype = "radial" then
        "radial-gradient(circle, " ++ stops ++ ")"
      else if gradient.gtype = "angular" then
        "conic-gradient(from " ++ angle ++ ", " ++ stops ++ ")"
      else
        rgbaToString (((gradient.stops.get? 0).map (fun s => s.color)).getD ⟨0, 0, 0, 1⟩)
  | .image imageHash _ _ =>
    match imageHash with
    | some _ =>
      "url(\x27data:image/svg+xml;base64," ++ btoa placeholderSvg ++ "\x27)"
    | none => "#f0f0f0"

/-- utils.ts `strokeToCss` (the `typeof weight` guard is vacuous on the
model, where `weight` is always a number). -/
def strokeToCss (stroke : FigmaStroke) : String :=
  let weight := stroke.weight
  let color :=
    match stroke.color with
    | some c => rgbaToString c
    | none => "transparent"
  jsNum weight ++ "px solid " ++ color

/-- utils.ts `effectToCss`.  `!effect.visible` is true both for `false` and
for an absent flag. -/
def effectToCss (effect : FigmaEffect) : String :=
  if effect.visible ≠ some true then ""
  else if effect.etype = "drop-shadow" then
    match effect.color, effect.offset with
    | some color, some offset =>
      jsNum offset.1 ++ "px " ++ jsNum offset.2 ++ "px " ++ jsNum effect.radius ++ "px " ++
        jsNum (jsOrQ effect.spread 0) ++ "px " ++ rgbaToString color
    | _, _ => ""
  else if effect.etype = "inner-shadow" then
    match effect.color, effect.offset with
    | some color, some offset =>
      "inset " ++ jsNum offset.1 ++ "px " ++ jsNum offset.2 ++ "px " ++ jsNum effect.radius ++
        "px " ++ jsNum (jsOrQ effect.spread 0) ++ "px " ++ rgbaToString color
    | _, _ => ""
  else if effect.etype = "blur" then
    if effect.radius > 0 then "blur(" ++ jsNum effect.radius ++ "px)" else ""
  else if effect.etype = "background-blur" then
    if effect.radius > 0 then "backdrop-filter: blur(" ++ jsNum effect.radius ++ "px)" else ""
  else ""

/-- utils.ts `cornerRadiusToCss` (the `typeof radius` guard is vacuous on
the model, where the argument is always a corner-radius record). -/
def cornerRadiusToCss (radius : FigmaCornerRadius) : String :=
  match radius.all with
  | some v => jsNum v ++ "px"
  | none =>
    let topLeft := jsOrQ radius.topLeft 0
    let topRight := jsOrQ radius.topRight 0
    let bottomRight := jsOrQ radius.bottomRight 0
    let bottomLeft := jsOrQ radius.bottomLeft 0
    if topLeft = topRight ∧ topRight = bottomRight ∧ bottomRight = bottomLeft then
      jsNum topLeft ++ "px"
    else
      jsNum topLeft ++ "px " ++ jsNum topRight ++ "px " ++ jsNum bottomRight ++ "px " ++
        jsNum bottomLeft ++ "px"

/-- First regex pass of utils.ts `sanitizeClassName`:
`replace(/[^a-zA-Z0-9-_]/g, "-")`. -/
def classChars (l : List Char) : List Char :=
  l.map (fun c => if c.isAlpha || c.isDigit || c = '-' || c = '_' then c else '-')

/-- Second pass: `replace(/^[^a-zA-Z_]/, "_")` (first character only). -/
def underscoreLead : List Char → List Char
  | [] => []
  | c :: tl => if c.isAlpha || c = '_' then c :: tl else '_' :: tl

/-- Third pass of `sanitizeClassName`: collapse every run of two or
more dashes into a single dash (the global dash-run regex).  The flag
records whether the previous kept character was a dash. -/
def collapseDashAux : Bool → List Char → List Char
  | _, [] => []
  | prevDash, c :: tl =>
    if c = '-' then
      if prevDash then collapseDashAux true tl
      else '-' :: collapseDashAux true tl
    else c :: collapseDashAux false tl

/-- `replace` with the global dash-run regex, see `collapseDashAux`. -/
def collapseDashPairs (l : List Char) : List Char := collapseDashAux false l

/-- utils.ts `sanitizeClassName` (current version, with the empty-name guard). -/
def sanitizeClassName (name : String) : String :=
  if name = "" then "component"
  else toLowerStr ⟨collapseDashPairs (underscoreLead (classChars name.data))⟩

/-! ### HTML serializer (the html module, current version) -/

/-- Recognized generation options (serializers/types.ts `SerializerOptions`). -/
structure GenOptions where
  inlineCss : Option Bool := none
  useTailwind : Option Bool := none
  nullSafety : Option Bool := none
  iosCompat : Option Bool := none
  exportAsComponent : Option Bool := none
  componentName : Option String := none

/-- Generation context (serializers/types.ts `GenCtx`; the prettier options
record is carried but never read by the modelled formatter). -/
structure GenCtx where
  options : GenOptions

/-- A generated output file (serializers/types.ts `GeneratedFile`). -/
structure GeneratedFile where
  filename : String
  code : String
  language : String
deriving DecidableEq

/-- The html module's process-global `classCounter` plus the per-call
`cssClasses` map, threaded explicitly. -/
structure HState where
  counter : ℕ
  css : List (String × String)

/-- First regex pass of the html module's `generateClassName`:
`replace(/[^a-zA-Z0-9]/g, "-")`. -/
def dashChars (l : List Char) : List Char :=
  l.map (fun c => if c.isAlpha || c.isDigit then c else '-')

/-- `replace(/^-|-$/g, "")`: drop one leading and one trailing dash. -/
def stripEdgeDashes (l : List Char) : List Char :=
  let l1 :=
    match l with
    | '-' :: tl => tl
    | _ => l
  if l1.getLast? = some '-' then l1.dropLast else l1

/-- html module `generateClassName`: sanitized base name plus the
incremented global counter.  Returns the class name and the new counter.
(The dash-run collapse regex maps every dash run to a single dash,
which is what `collapseDashPairs` computes.) -/
def generateClassName (node : FigmaIRNode) (classCounter : ℕ) : String × ℕ :=
  let baseName :=
    toLowerStr ⟨stripEdgeDashes (collapseDashPairs (dashChars node.name.data))⟩
  let c := classCounter + 1
  ((if baseName = "" then "element" else baseName) ++ "-" ++ natStr c, c)

/-- html module `pxToRem`: `(px / 16).toFixed(3) + "rem"`. -/
def pxToRem (px : ℚ) : String := qToFixed 3 (px / 16) ++ "rem"

/-- The text style of an IR node (defined for text variants; on IR produced
by the normalizer, `type = "text"` coincides with the text variant). -/
def FigmaIRNode.textStyleOf : FigmaIRNode → FigmaTextStyle
  | .mk _ (.text _ st) _ => st
  | _ => ⟨"Inter", 400, 16, .auto, 0, "left", "top", "none", "original"⟩

/-- The characters of an IR text node. -/
def FigmaIRNode.charactersOf : FigmaIRNode → String
  | .mk _ (.text chars _) _ => chars
  | _ => ""

/-- The layout descriptor of an IR frame node. -/
def FigmaIRNode.layoutPropsOf : FigmaIRNode → FigmaLayoutProps
  | .mk _ (.frame lp _ _) _ => lp
  | _ => ⟨"none", "fixed", "fixed", "min", "min", 0, ⟨0, 0, 0, 0⟩⟩

/-- html module `getSemanticTag`. -/
def getSemanticTag (node : FigmaIRNode) : String :=
  if node.base.type = "text" then
    let fontSize := node.textStyleOf.fontSize
    if fontSize ≥ 32 then "h1"
    else if fontSize ≥ 24 then "h2"
    else if fontSize ≥ 20 then "h3"
    else if fontSize ≥ 18 then "h4"
    else if fontSize ≥ 16 then "h5"
    else if fontSize ≥ 14 then "h6"
    else "p"
  else
    let nameLower := toLowerStr node.name
    if strIncludes nameLower "button" || strIncludes nameLower "btn" then "button"
    else if strIncludes nameLower "link" then "a"
    else if strIncludes nameLower "image" || strIncludes nameLower "img" then "figure"
    else if strIncludes nameLower "card" then "article"
    else if strIncludes nameLower "header" then "header"
    else if strIncludes nameLower "footer" then "footer"
    else if strIncludes nameLower "nav" then "nav"
    else if strIncludes nameLower "section" then "section"
    else "div"

/-- html module `hasAutoLayout`. -/
def hasAutoLayout (node : FigmaIRNode) : Bool :=
  node.base.type = "frame" && node.layoutPropsOf.mode ≠ "none"

/-- `justifyMap` of the html module (`undefined` rendering for unmapped keys). -/
def justifyMapOf : String → Option String
  | "min" => some "flex-start"
  | "center" => some "center"
  | "max" => some "flex-end"
  | "space-between" => some "space-between"
  | _ => none

/-- `alignMap` of the html module. -/
def alignMapOf : String → Option String
  | "min" => some "flex-start"
  | "center" => some "center"
  | "max" => some "flex-end"
  | _ => none

/-- `caseMap` of the html module's text branch. -/
def caseMapOf : String → Option String
  | "upper" => some "uppercase"
  | "lower" => some "lowercase"
  | "title" => some "capitalize"
  | _ => none

/-- html module `generateNodeStyles`: the per-node CSS declaration list,
joined with `";\n  "`. -/
noncomputable def generateNodeStyles (node : FigmaIRNode) (parent : Option FigmaIRNode)
    (isRoot : Bool) : String :=
  let base := node.base
  let layoutStyles :=
    if hasAutoLayout node then
      let layout := node.layoutPropsOf
      ["display: flex"] ++
      (if layout.mode = "horizontal" then ["flex-direction: row"]
       else if layout.mode = "vertical" then ["flex-direction: column"]
       else []) ++
      (if layout.mode = "wrap" then ["flex-wrap: wrap"] else []) ++
      (if layout.primaryAxisAlignItems ≠ "" then
        ["justify-content: " ++ (justifyMapOf layout.primaryAxisAlignItems).getD "undefined"]
       else []) ++
      (if layout.counterAxisAlignItems ≠ "" then
        ["align-items: " ++ (alignMapOf layout.counterAxisAlignItems).getD "undefined"]
       else []) ++
      (if layout.itemSpacing > 0 then ["gap: " ++ pxToRem layout.itemSpacing] else []) ++
      (let padding := layout.padding
       if padding.top ≠ 0 ∨ padding.right ≠ 0 ∨ padding.bottom ≠ 0 ∨ padding.left ≠ 0 then
        ["padding: " ++ String.intercalate " "
          ([padding.top, padding.right, padding.bottom, padding.left].map pxToRem)]
       else [])
    else []
  let dimensionStyles :=
    if isRoot then
      ["position: relative", "width: 100%", "max-width: " ++ jsNum base.width ++ "px",
       "min-height: " ++ jsNum base.height ++ "px", "margin: 0 auto"]
    else
      match parent with
      | some p =>
        if hasAutoLayout p then
          (if base.width > 0 then ["width: " ++ jsNum base.width ++ "px"] else []) ++
          (if base.height > 0 then ["height: " ++ jsNum base.height ++ "px"] else [])
        else
          ["position: absolute",
           "left: " ++ jsNum (base.x - p.base.x) ++ "px",
           "top: " ++ jsNum (base.y - p.base.y) ++ "px",
           "width: " ++ jsNum base.width ++ "px",
           "height: " ++ jsNum base.height ++ "px"]
      | none =>
        (if base.width > 0 then ["width: " ++ jsNum base.width ++ "px"] else []) ++
        (if base.height > 0 then ["height: " ++ jsNum base.height ++ "px"] else [])
  let visualStyles :=
    (if base.opacity ≠ 1 then ["opacity: " ++ jsNum base.opacity] else []) ++
    (if base.rotation ≠ 0 then ["transform: rotate(" ++ jsNum base.rotation ++ "deg)"] else []) ++
    (match base.fills with
     | f :: _ =>
       let fill := fillToCss f
       if fill ≠ "" then ["background: " ++ fill] else []
     | [] => []) ++
    (match base.strokes with
     | s :: _ =>
       let stroke := strokeToCss s
       if stroke ≠ "" then ["border: " ++ stroke] else []
     | [] => []) ++
    (let borderRadius := cornerRadiusToCss base.cornerRadius
     if borderRadius ≠ "0px" then ["border-radius: " ++ borderRadius] else []) ++
    (let shadows :=
      ((base.effects.filter (fun e =>
          (e.etype = "drop-shadow" || e.etype = "inner-shadow") && e.visible = some true)).map
        effectToCss).filter (fun s => s ≠ "")
     if shadows ≠ [] then ["box-shadow: " ++ String.intercalate ", " shadows] else []) ++
    (let blurs :=
      ((base.effects.filter (fun e => e.etype = "blur" && e.visible = some true)).map
        effectToCss).filter (fun s => s ≠ "")
     if blurs ≠ [] then ["filter: " ++ String.intercalate " " blurs] else [])
  let textStyles :=
    if base.type = "text" then
      let textStyle := node.textStyleOf
      ["font-family: \"" ++ textStyle.fontFamily ++
        "\", -apple-system, BlinkMacSystemFont, \"Segoe UI\", Roboto, sans-serif",
       "font-weight: " ++ natStr textStyle.fontWeight,
       "font-size: " ++ pxToRem textStyle.fontSize] ++
      (match textStyle.lineHeight with
       | .px lh => ["line-height: " ++ qToFixed 2 (lh / textStyle.fontSize)]
       | .auto => []) ++
      (if textStyle.letterSpacing ≠ 0 then
        ["letter-spacing: " ++ jsNum textStyle.letterSpacing ++ "px"] else []) ++
      ["text-align: " ++ textStyle.textAlignHorizontal] ++
      (if textStyle.textDecoration ≠ "none" then
        ["text-decoration: " ++ textStyle.textDecoration] else []) ++
      (if textStyle.textCase ≠ "original" then
        ["text-transform: " ++ (caseMapOf textStyle.textCase).getD "undefined"] else []) ++
      (match base.fills with
       | .solid (some color) _ :: _ =>
         ["color: rgba(" ++ intStr color.r ++ ", " ++ intStr color.g ++ ", " ++
           intStr color.b ++ ", " ++ jsNum color.a ++ ")"]
       | _ => [])
    else []
  String.intercalate ";\n  " (layoutStyles ++ dimensionStyles ++ visualStyles ++ textStyles)

/-- JS `Map.prototype.set`: replace in place if the key exists, else append. -/
def mapSet (m : List (String × String)) (k v : String) : List (String × String) :=
  if m.any (fun e => e.1 = k) then m.map (fun e => if e.1 = k then (k, v) else e)
  else m ++ [(k, v)]

/-- The text escaping of the html module's text branch. -/
def escapeHtml (s : String) : String :=
  ⟨(s.data.map (fun c =>
      if c = '&' then "&amp;".data
      else if c = '<' then "&lt;".data
      else if c = '>' then "&gt;".data
      else [c])).flatten⟩

mutual

/-- html module `generateHTMLElement`, with the global counter and the
`cssClasses` map threaded as explicit state. -/
noncomputable def generateHTMLElement :
    FigmaIRNode → Option FigmaIRNode → ℕ → HState → String × HState
  | node@(.mk base _ children), parent, depth, st =>
    let indent := repeatStr "  " depth
    let tag := getSemanticTag node
    let pr := generateClassName node st.counter
    let className := pr.1
    let styles := generateNodeStyles node parent parent.isNone
    let st1 : HState := ⟨pr.2, if styles ≠ "" then mapSet st.css className styles else st.css⟩
    if base.type = "text" then
      let content := escapeHtml node.charactersOf
      (indent ++ "<" ++ tag ++ " class=\"" ++ className ++ "\">" ++ content ++
        "</" ++ tag ++ ">", st1)
    else if children.isEmpty then
      (indent ++ "<" ++ tag ++ " class=\"" ++ className ++ "\"></" ++ tag ++ ">", st1)
    else
      let cr := genChildrenHTML children node (depth + 1) st1
      (indent ++ "<" ++ tag ++ " class=\"" ++ className ++ "\">\n" ++
        String.intercalate "\n" cr.1 ++ "\n" ++ indent ++ "</" ++ tag ++ ">", cr.2)

/-- The sequential `children.map(child => generateHTMLElement(child, node,
depth + 1, cssClasses))` of the html module, threading the state left to
right. -/
noncomputable def genChildrenHTML :
    List FigmaIRNode → FigmaIRNode → ℕ → HState → List String × HState
  | [], _, _, st => ([], st)
  | c :: tl, parent, depth, st =>
    let r1 := generateHTMLElement c (some parent) depth st
    let r2 := genChildrenHTML tl parent depth r1.2
    (r1.1 :: r2.1, r2.2)

end

/-- The state in force when the `k`-th child of a children list is emitted:
the exit state of the first `k` siblings. -/
noncomputable def entrySt (cs : List FigmaIRNode) (parent : FigmaIRNode) (depth : ℕ)
    (st : HState) (k : ℕ) : HState :=
  (genChildrenHTML (cs.take k) parent depth st).2

/-! ### The basic formatter (utils.ts `formatPrettier` and helpers)

Each global regex replace is rendered as a left-to-right scan with the
same leftmost/greedy semantics; the scans carry length fuel so that they
are structurally recursive. -/

/-- Opening brackets counted by `formatTypeScript` (brace, paren, square). -/
def isOpenBracket (c : Char) : Bool := c = '\x7b' || c = '(' || c = '['

/-- Closing brackets counted by `formatTypeScript` (brace and paren only,
as in the source regex). -/
def isCloseBracket (c : Char) : Bool := c = '\x7d' || c = ')'

/-- Does `pat` occur as an initial segment of `s`? -/
def strStarts (s pat : String) : Bool := leadMatch s.data pat.data

/-- Does `pat` occur as a final segment of `s`? -/
def strEnds (s pat : String) : Bool := leadMatch s.data.reverse pat.data.reverse

/-- The per-line loop of `formatTypeScript`: the accumulator carries the
bracket balance of all previous lines (an integer, clamped only at use). -/
def tsLines : List String → ℤ → List String
  | [], _ => []
  | line :: rest, acc =>
    let trimmed := trimWs line
    let out :=
      if trimmed = "" then ""
      else
        let currentClosing : ℤ :=
          match trimmed.data with
          | c :: _ => if isCloseBracket c then 1 else 0
          | [] => 0
        repeatStr "  " (max 0 (acc - currentClosing)).toNat ++ trimmed
    let delta : ℤ := (line.data.filter isOpenBracket).length - (line.data.filter isCloseBracket).length
    out :: tsLines rest (acc + delta)

/-- Global replace of the triple-blank-line pattern by a double newline
(greedy: a match extends to the last newline of the whitespace run). -/
def collapseTripleBlank : ℕ → List Char → List Char
  | 0, l => l
  | fuel + 1, l =>
    match l with
    | [] => []
    | c :: tl =>
      if c = '\n' then
        let run := tl.takeWhile isWsChar
        if (run.filter (fun x => x = '\n')).length ≥ 2 then
          let afterLastNl := (run.reverse.takeWhile (fun x => x ≠ '\n')).reverse
          '\n' :: '\n' :: collapseTripleBlank fuel (afterLastNl ++ tl.drop run.length)
        else c :: collapseTripleBlank fuel tl
      else c :: collapseTripleBlank fuel tl

/-- utils.ts `formatTypeScript`. -/
def formatTypeScript (code : String) : String :=
  let lines := code.splitOn "\n"
  let formatted := String.intercalate "\n" (tsLines lines 0)
  ⟨collapseTripleBlank (formatted.data.length + 1) formatted.data⟩

/-- Global replace of `\s*` brace-open `\s*` by a space, open brace, newline
and indent (the first pass of `formatCSS`). -/
def cssOpenPass : ℕ → List Char → List Char
  | 0, l => l
  | fuel + 1, l =>
    match l with
    | [] => []
    | c :: tl =>
      let ws := l.takeWhile isWsChar
      match l.drop ws.length with
      | '\x7b' :: tl2 =>
        let ws2 := tl2.takeWhile isWsChar
        ' ' :: '\x7b' :: '\n' :: ' ' :: ' ' :: cssOpenPass fuel (tl2.drop ws2.length)
      | _ => c :: cssOpenPass fuel tl

/-- Global replace of a semicolon followed by whitespace by a semicolon,
newline and indent (the second pass of `formatCSS`). -/
def cssSemiPass : ℕ → List Char → List Char
  | 0, l => l
  | fuel + 1, l =>
    match l with
    | [] => []
    | ';' :: tl =>
      let ws := tl.takeWhile isWsChar
      ';' :: '\n' :: ' ' :: ' ' :: cssSemiPass fuel (tl.drop ws.length)
    | c :: tl => c :: cssSemiPass fuel tl

/-- Global replace of `\s*` brace-close `\s*` by a newline, close brace and
newline (the third pass of `formatCSS`). -/
def cssClosePass : ℕ → List Char → List Char
  | 0, l => l
  | fuel + 1, l =>
    match l with
    | [] => []
    | c :: tl =>
      let ws := l.takeWhile isWsChar
      match l.drop ws.length with
      | '\x7d' :: tl2 =>
        let ws2 := tl2.takeWhile isWsChar
        '\n' :: '\x7d' :: '\n' :: cssClosePass fuel (tl2.drop ws2.length)
      | _ => c :: cssClosePass fuel tl

/-- Global replace of a blank line (newline, whitespace, newline) by a
single newline (the fourth pass of `formatCSS`; the greedy match ends at
the last newline of the run). -/
def collapseBlankPass : ℕ → List Char → List Char
  | 0, l => l
  | fuel + 1, l =>
    match l with
    | [] => []
    | c :: tl =>
      if c = '\n' then
        let run := tl.takeWhile isWsChar
        if (run.filter (fun x => x = '\n')).length ≥ 1 then
          let afterLastNl := (run.reverse.takeWhile (fun x => x ≠ '\n')).reverse
          '\n' :: collapseBlankPass fuel (afterLastNl ++ tl.drop run.length)
        else c :: collapseBlankPass fuel tl
      else c :: collapseBlankPass fuel tl

/-- The indentation loop shared by `formatCSS` (brace-driven). -/
def cssIndentLines : List String → ℕ → List String
  | [], _ => []
  | line :: rest, indent =>
    let trimmed := trimWs line
    if trimmed = "" then cssIndentLines rest indent
    else
      let indent1 := if strStarts trimmed "\x7d" then indent - 1 else indent
      let out := repeatStr "  " indent1 ++ trimmed
      let indent2 := if strEnds trimmed "\x7b" then indent1 + 1 else indent1
      out :: cssIndentLines rest indent2

/-- utils.ts `formatCSS`. -/
def formatCSS (code : String) : String :=
  let l0 := code.data
  let l1 := cssOpenPass (l0.length + 1) l0
  let l2 := cssSemiPass (l1.length + 1) l1
  let l3 := cssClosePass (l2.length + 1) l2
  let l4 := collapseBlankPass (l3.length + 1) l3
  let formatted := trimWs ⟨l4⟩
  String.intercalate "\n" (cssIndentLines (formatted.splitOn "\n") 0)

/-- The tag-break pass of `formatHTML`: replace a close angle, whitespace,
open angle sequence by close angle, newline, open angle. -/
def htmlTagBreak : ℕ → List Char → List Char
  | 0, l => l
  | fuel + 1, l =>
    match l with
    | [] => []
    | '>' :: tl =>
      let ws := tl.takeWhile isWsChar
      match tl.drop ws.length with
      | '<' :: tl2 => '>' :: '\n' :: '<' :: htmlTagBreak fuel tl2
      | _ => '>' :: htmlTagBreak fuel tl
    | c :: tl => c :: htmlTagBreak fuel tl

/-- Whitespace collapse: every whitespace run becomes a single space. -/
def collapseWs : ℕ → List Char → List Char
  | 0, l => l
  | fuel + 1, l =>
    match l with
    | [] => []
    | c :: tl =>
      if isWsChar c then ' ' :: collapseWs fuel (tl.dropWhile isWsChar)
      else c :: collapseWs fuel tl

/-- The indentation loop of `formatHTML` (tag-driven). -/
def htmlIndentLines : List String → ℕ → List String
  | [], _ => []
  | line :: rest, indent =>
    let trimmed := trimWs line
    if trimmed = "" then htmlIndentLines rest indent
    else
      let indent1 :=
        if strStarts trimmed "</" || strStarts trimmed "<!" then indent - 1 else indent
      let out := repeatStr "  " indent1 ++ trimmed
      let indent2 :=
        if strStarts trimmed "<" && !strStarts trimmed "</" && !strStarts trimmed "<!" &&
            !strEnds trimmed "/>" && !strIncludes trimmed "</" then
          indent1 + 1
        else indent1
      out :: htmlIndentLines rest indent2

/-- utils.ts `formatHTML`. -/
def formatHTML (code : String) : String :=
  let l0 := code.data
  let l1 := htmlTagBreak (l0.length + 1) l0
  let l2 := collapseWs (l1.length + 1) l1
  let formatted := trimWs ⟨l2⟩
  String.intercalate "\n" (htmlIndentLines (formatted.splitOn "\n") 0)

/-- utils.ts `formatPrettier` (the promise wrapper and the unused options
record are dropped; the catch branch is unreachable because every branch is
total). -/
def formatPrettier (code : String) (parser : String) : String :=
  if parser = "typescript" ∨ parser = "tsx" then formatTypeScript code
  else if parser = "css" then formatCSS code
  else if parser = "html" then formatHTML code
  else code

/-! ### html module `htmlSerializer.generate` -/

/-- The CSS file body the html serializer assembles around the collected
per-class rules. -/
def htmlCssContent (cssRules : String) : String :=
  "/* Reset and base styles */\n* \x7b\n  margin: 0;\n  padding: 0;\n  box-sizing: border-box;\n\x7d\n\nhtml \x7b\n  font-size: 16px;\n  -webkit-font-smoothing: antialiased;\n  -moz-osx-font-smoothing: grayscale;\n\x7d\n\nbody \x7b\n  font-family: -apple-system, BlinkMacSystemFont, \"Segoe UI\", Roboto, sans-serif;\n  line-height: 1.5;\n  color: #333;\n  background-color: #fff;\n\x7d\n\nimg \x7b\n  max-width: 100%;\n  height: auto;\n  display: block;\n\x7d\n\nbutton \x7b\n  cursor: pointer;\n  border: none;\n  background: none;\n  font: inherit;\n\x7d\n\n/* Component styles */\n" ++ cssRules

/-- The HTML document the html serializer assembles around the generated
body markup. -/
def htmlDocumentOf (componentName htmlContent : String) : String :=
  "<!DOCTYPE html>\n<html lang=\"en\">\n<head>\n  <meta charset=\"UTF-8\">\n  <meta name=\"viewport\" content=\"width=device-width, initial-scale=1.0\">\n  <title>" ++
    componentName ++
    "</title>\n  <link rel=\"stylesheet\" href=\"styles.css\">\n</head>\n<body>\n" ++
    htmlContent ++ "\n</body>\n</html>"

/-- html module `htmlSerializer.generate`.  The global `classCounter` is
modelled as explicit state: the third argument is its value left over from
any previous call; the first statement of the body resets it to 0
(`classCounter = 0; // Reset counter`), and the returned second component
is its value after the call.  The `cssClasses` map is a fresh local map per
call. -/
noncomputable def htmlGenerate (ir : FigmaIRNode) (ctx : GenCtx) (classCounterIn : ℕ) :
    List GeneratedFile × ℕ :=
  let componentName :=
    sanitizeClassName (jsOrStr ctx.options.componentName (jsOrStr (some ir.name) "component"))
  let st0 : HState := ⟨0, []⟩
  let r := generateHTMLElement ir none 2 st0
  let htmlContent := r.1
  let cssRules :=
    String.intercalate "\n\n"
      (r.2.css.map (fun e => "." ++ e.1 ++ " \x7b\n  " ++ e.2 ++ ";\n\x7d"))
  let cssContent := htmlCssContent cssRules
  let htmlDocument := htmlDocumentOf componentName htmlContent
  ([{ filename := "index.html", code := formatPrettier htmlDocument "html", language := "html" },
    { filename := "styles.css", code := formatPrettier cssContent "css", language := "css" }],
   r.2.counter)

/-! ### Vue serializer (the vue module): template generation -/

mutual

/-- vue module `generateVueTemplate`: the class attribute is
`sanitizeClassName(node.name)` with no uniqueness counter. -/
def generateVueTemplate : FigmaIRNode → String
  | node@(.mk base _ children) =>
    let className := sanitizeClassName base.name
    if base.type = "text" then
      "  <p class=\"" ++ className ++ "\">" ++ node.charactersOf ++ "</p>"
    else if base.type = "frame" ∨ base.type = "group" then
      let childrenStr := String.intercalate "\n" (genVueChildren children)
      if childrenStr ≠ "" then
        "  <div class=\"" ++ className ++ "\">\n" ++ childrenStr ++ "\n  </div>"
      else "  <div class=\"" ++ className ++ "\"></div>"
    else "  <div class=\"" ++ className ++ "\"></div>"

/-- `frameNode.children?.map(generateVueTemplate)`. -/
def genVueChildren : List FigmaIRNode → List String
  | [] => []
  | c :: cs => generateVueTemplate c :: genVueChildren cs

end

/-! ### Serializer registry (the registry module)

The registered metadata of the seven serializer modules, in the fixed
module order of the registry file.  All seven entries are taken from their
module sources: html and swiftui sit in one unnamed serializer document,
flutter, vue and the registry itself in another, react in react.ts, and
the react-native and json modules are concatenated after the IR schema in
core/figma-ir.ts.  Note the vue module registers under the id `"vue3"`. -/

/-- Registry-visible serializer metadata (the generate function itself is
modelled separately per serializer). -/
structure SerializerInfo where
  id : String
  label : String
  description : String
deriving DecidableEq

/-- The json module's registration metadata (the module concatenated at the
end of core/figma-ir.ts). -/
def jsonSerializerInfo : SerializerInfo :=
  { id := "json", label := "JSON", description := "Raw Figma IR as formatted JSON" }

/-- The html module's registration metadata. -/
def htmlSerializerInfo : SerializerInfo :=
  { id := "html", label := "HTML/CSS", description := "Clean, semantic HTML with modern CSS" }

/-- The react module's registration metadata. -/
def reactSerializerInfo : SerializerInfo :=
  { id := "react", label := "React",
    description := "Clean, production-ready React components with CSS modules" }

/-- The react-native module's registration metadata (the module concatenated
after the IR schema in core/figma-ir.ts). -/
def reactNativeSerializerInfo : SerializerInfo :=
  { id := "react-native", label := "React Native",
    description := "React Native component with StyleSheet" }

/-- The flutter module's registration metadata. -/
def flutterSerializerInfo : SerializerInfo :=
  { id := "flutter", label := "Flutter", description := "Flutter Dart widget code" }

/-- The swiftui module's registration metadata. -/
def swiftuiSerializerInfo : SerializerInfo :=
  { id := "swiftui", label := "SwiftUI", description := "SwiftUI view code for iOS/macOS" }

/-- The vue module's registration metadata: its id is `"vue3"`. -/
def vueSerializerInfo : SerializerInfo :=
  { id := "vue3", label := "Vue 3",
    description := "Vue 3 single file component with script setup" }

/-- registry module `register`: `registry[serializer.id] = serializer` on a
plain object — replace the entry if the key exists, else append in
insertion order. -/
def register (s : SerializerInfo) (registry : List SerializerInfo) : List SerializerInfo :=
  if registry.any (fun t => t.id = s.id) then
    registry.map (fun t => if t.id = s.id then s else t)
  else registry ++ [s]

/-- The registry after the module-level imports of the registry module have
run, in their fixed order: json, html, react, react-native, flutter,
swiftui, vue. -/
def initRegistry : List SerializerInfo :=
  register vueSerializerInfo
    (register swiftuiSerializerInfo
      (register flutterSerializerInfo
        (register reactNativeSerializerInfo
          (register reactSerializerInfo
            (register htmlSerializerInfo
              (register jsonSerializerInfo []))))))

/-- registry module `getSerializer`: an unknown id yields the explicit
absent value, never an exception. -/
def getSerializer (id : String) (registry : List SerializerInfo) : Option SerializerInfo :=
  registry.find? (fun t => t.id = id)

/-- registry module `getAvailableSerializers`: the registered serializers in
key insertion order. -/
def getAvailableSerializers (registry : List SerializerInfo) : List SerializerInfo :=
  registry

/-! ### Concrete inputs used by the claim instances -/

/-- A minimal well-typed property bag. -/
def plainProps (id name : String) : SceneProps :=
  { id := id, name := name, visible := true }

/-- A childless rectangle node. -/
def leafRect : SceneNode := .mk "RECTANGLE" (plainProps "r" "rect") none

/-- A frame chain of the given extra depth: `chainFrame 0` is a childless
frame, `chainFrame (k+1)` is a frame whose sole child is `chainFrame k`. -/
def chainFrame : ℕ → SceneNode
  | 0 => .mk "FRAME" (plainProps "f" "frame") none
  | k + 1 => .mk "FRAME" (plainProps "f" "frame") (some [chainFrame k])

/-- A frame with 1500 children. -/
def wideFrame : SceneNode :=
  .mk "FRAME" (plainProps "w" "wide") (some (List.replicate 1500 leafRect))

/-- A drop shadow whose `visible` flag is `false`. -/
def invisibleShadow : RawEffect :=
  { etype := "DROP_SHADOW", visible := some false, radius := 4
  , color := ⟨0, 0, 0, 1⟩, offset := some (0, 2), spread := some 0 }

/-- A scene node with no `type` property (a heterogeneous input object the
spec requires the normalizer to absorb). -/
def untypedInput : SceneValue := .mk none (plainProps "1" "n") none

/-- A minimal IR base record for serializer inputs. -/
def exIRBase (id name type : String) : IRBase :=
  { id := id, name := name, type := type, visible := true, locked := false
  , x := 0, y := 0, width := 0, height := 0, rotation := 0, opacity := 1
  , fills := [], strokes := [], effects := []
  , constraints := ⟨"left", "top"⟩, cornerRadius := {}
  , blendMode := "normal", exportSettings := [] }

/-- A default IR text style. -/
def exTextStyle : FigmaTextStyle :=
  ⟨"Inter", 400, 16, .auto, 0, "left", "top", "none", "original"⟩

/-- An IR text node named `foo` with literal content `a`. -/
def fooTextA : FigmaIRNode := .mk (exIRBase "2" "foo" "text") (.text "a" exTextStyle) []

/-- A second IR text node, also named `foo`, with literal content `b`. -/
def fooTextB : FigmaIRNode := .mk (exIRBase "3" "foo" "text") (.text "b" exTextStyle) []

/-- An IR frame with two identically named text children. -/
def twinFrame : FigmaIRNode :=
  .mk (exIRBase "1" "card" "frame")
    (.frame ⟨"none", "fixed", "fixed", "min", "min", 0, ⟨0, 0, 0, 0⟩⟩ false [])
    [fooTextA, fooTextB]

/-! ## Theorems -/

/-! ### Small facts about the helpers -/

theorem jsOrQ_some_zero (v : ℚ) : jsOrQ (some v) 0 = v := by
  rcases eq_or_ne v 0 with h | h <;> simp [jsOrQ, h]

/-! ### C1: the normalizer can throw on a heterogeneous input object -/

/-- C1: the spec says `normalizeNode` never throws for any input object and
always returns a serializable IR node.  On an input object with no `type`
property the first `normalizeBaseNode` call throws, and the `catch` handler
of `normalizeNode` calls `normalizeBaseNode` again, whose repeated throw
escapes to the caller: the function throws instead of returning the minimal
fallback node.  This theorem evaluates the JS-semantics embedding at that
failing input. -/
theorem c1_normalizeNode_throws_on_untyped_input :
    normalizeNodeJs untypedInput =
      .error "TypeError: Cannot read properties of undefined (reading toLowerCase)" := by
  rfl

/-! ### C5: invisible effects are dropped, not preserved -/

/-- C5 counterexample: a drop shadow flagged `visible: false` is removed by
`normalizeEffects` (the claim says it is preserved and merely marked). -/
theorem c5_counterexample_invisible_effect_removed :
    normalizeEffects [invisibleShadow] = [] ∧ invisibleShadow.visible = some false := by
  constructor <;> rfl

/-- C5 (amended): `normalizeEffects` drops every effect flagged invisible:
no effect of the result carries `visible = false`, and a list consisting
solely of invisible effects normalizes to the empty list.  Effects that
survive keep their raw `visible` flag. -/
theorem c5_invisible_effects_dropped (es : List RawEffect) :
    (∀ x ∈ normalizeEffects es, x.visible ≠ some false) ∧
    ((∀ e ∈ es, e.visible = some false) → normalizeEffects es = []) := by
  constructor
  · intro x hx
    simp only [normalizeEffects, List.mem_map] at hx
    obtain ⟨e, he, rfl⟩ := hx
    rw [List.mem_filter] at he
    have hv : e.visible ≠ some false := by simpa using he.2
    split <;> simpa using hv
  · intro h
    have hfil : es.filter (fun effect => effect.visible ≠ some false) = [] := by
      rw [List.filter_eq_nil_iff]
      intro e he
      simp [h e he]
    simp only [normalizeEffects]
    rw [hfil]
    rfl

/-- C5 witness: the amended theorem applied to the singleton list holding
the invisible shadow. -/
theorem c5_witness :
    (∀ e ∈ [invisibleShadow], e.visible = some false) ∧
    normalizeEffects [invisibleShadow] = [] :=
  ⟨by decide, (c5_invisible_effects_dropped [invisibleShadow]).2 (by decide)⟩

/-! ### C6: generation output is independent of the pre-call counter state -/

/-- C6: `htmlSerializer.generate` resets the process-wide `classCounter` to
0 before any name is generated, so the file list it produces does not
depend on the counter state left by earlier calls; in particular two
fresh top-level calls on the same `ir` and `ctx` — the second starting from
whatever counter state the first left behind — produce byte-identical file
lists. -/
theorem c6_generate_idempotent (ir : FigmaIRNode) (ctx : GenCtx) (s1 s2 : ℕ) :
    (htmlGenerate ir ctx s1).1 = (htmlGenerate ir ctx s2).1 ∧
    (htmlGenerate ir ctx (htmlGenerate ir ctx s1).2).1 = (htmlGenerate ir ctx s1).1 :=
  ⟨rfl, rfl⟩

/-! ### C8: registry lookups -/

/-- C8 counterexample: the catalogued id `"vue"` is not registered — the
Vue serializer module registers under `"vue3"` — contradicting the claim
that the seven catalogued ids (including `vue`) are the registered ones. -/
theorem c8_counterexample_vue_id_not_registered :
    getSerializer "vue" initRegistry = none ∧
    getSerializer "vue3" initRegistry = some vueSerializerInfo := by
  constructor <;> rfl

/-- C8 (amended): looking up any id outside the registered set returns the
explicit absent value (`undefined`), never an exception, and the ids
registered at process start are exactly json, html, react, react-native,
flutter, swiftui and vue3 — the Vue serializer registers under `"vue3"`
although the catalog advertises `"vue"`. -/
theorem c8_unknown_serializer_absent :
    (∀ id : String, id ∉ (getAvailableSerializers initRegistry).map SerializerInfo.id →
      getSerializer id initRegistry = none) ∧
    (getAvailableSerializers initRegistry).map SerializerInfo.id =
      ["json", "html", "react", "react-native", "flutter", "swiftui", "vue3"] := by
  constructor
  · intro id h
    rw [getSerializer, List.find?_eq_none]
    intro t ht heq
    exact h (by
      have : t.id = id := by simpa using heq
      exact this ▸ List.mem_map_of_mem SerializerInfo.id ht)
  · rfl

/-- C8 witness: the unregistered id `"angular"` yields the absent value. -/
theorem c8_witness :
    "angular" ∉ (getAvailableSerializers initRegistry).map SerializerInfo.id ∧
    getSerializer "angular" initRegistry = none :=
  ⟨by decide, c8_unknown_serializer_absent.1 "angular" (by decide)⟩

/-! ### C9: corner-radius shorthand collapse -/

/-- C9: a four-corner descriptor (no `all` entry) collapses to the
single-value form when all four corners agree, and otherwise renders the
four-value form in top-left, top-right, bottom-right, bottom-left order. -/
theorem c9_corner_radius_shorthand (tl tr bl br : ℚ) :
    (tl = tr → tr = br → br = bl →
      cornerRadiusToCss ⟨none, some tl, some tr, some bl, some br⟩ = jsNum tl ++ "px") ∧
    (¬(tl = tr ∧ tr = br ∧ br = bl) →
      cornerRadiusToCss ⟨none, some tl, some tr, some bl, some br⟩ =
        jsNum tl ++ "px " ++ jsNum tr ++ "px " ++ jsNum br ++ "px " ++ jsNum bl ++ "px") := by
  constructor
  · intro h1 h2 h3
    simp only [cornerRadiusToCss, jsOrQ_some_zero]
    rw [if_pos ⟨h1, h2, h3⟩]
  · intro h
    simp only [cornerRadiusToCss, jsOrQ_some_zero]
    rw [if_neg h]

/-- C9 witness: `{topLeft: 8, topRight: 8, bottomLeft: 8, bottomRight: 8}`
collapses to `8px`; `{8, 8, 0, 0}` renders the four-value form. -/
theorem c9_witness :
    cornerRadiusToCss ⟨none, some 8, some 8, some 8, some 8⟩ = jsNum (8 : ℚ) ++ "px" ∧
    cornerRadiusToCss ⟨none, some 8, some 8, some 0, some 0⟩ =
      jsNum (8 : ℚ) ++ "px " ++ jsNum (8 : ℚ) ++ "px " ++ jsNum (0 : ℚ) ++ "px " ++
        jsNum (0 : ℚ) ++ "px" :=
  ⟨(c9_corner_radius_shorthand 8 8 8 8).1 rfl rfl rfl,
   (c9_corner_radius_shorthand 8 8 0 0).2 (by decide)⟩

/-! ### C10: solid-fill opacity folding -/

/-- C10: for a solid fill, a defined opacity below 1 forces the rgba form
with alpha `color.a * opacity`; an absent opacity, or an opacity of exactly
1, together with an alpha of exactly 1 yields the plain `rgb(r, g, b)`
form with no alpha component. -/
theorem c10_solid_fill_opacity (c : FigmaColor) (q : ℚ) :
    (q < 1 →
      fillToCss (.solid (some c) (some q)) =
        "rgba(" ++ intStr c.r ++ ", " ++ intStr c.g ++ ", " ++ intStr c.b ++ ", " ++
          jsNum (c.a * q) ++ ")") ∧
    (c.a = 1 →
      fillToCss (.solid (some c) none) =
        "rgb(" ++ intStr c.r ++ ", " ++ intStr c.g ++ ", " ++ intStr c.b ++ ")") ∧
    (c.a = 1 →
      fillToCss (.solid (some c) (some 1)) =
        "rgb(" ++ intStr c.r ++ ", " ++ intStr c.g ++ ", " ++ intStr c.b ++ ")") := by
  refine ⟨fun h => ?_, fun h => ?_, fun h => ?_⟩
  · simp only [fillToCss, Option.getD_some]
    rw [if_pos h]
  · simp only [fillToCss, Option.getD_none]
    rw [if_neg (by norm_num), rgbaToString, if_pos h]
  · simp only [fillToCss, Option.getD_some]
    rw [if_neg (by norm_num), rgbaToString, if_pos h]

/-- C10 witness: a red fill at opacity one half renders as rgba with the
folded alpha; the same color with no opacity (alpha 1) renders as rgb. -/
theorem c10_witness :
    ((1 / 2 : ℚ) < 1 ∧
      fillToCss (.solid (some ⟨255, 0, 0, 1⟩) (some (1 / 2))) =
        "rgba(" ++ intStr 255 ++ ", " ++ intStr 0 ++ ", " ++ intStr 0 ++ ", " ++
          jsNum ((1 : ℚ) * (1 / 2)) ++ ")") ∧
    fillToCss (.solid (some ⟨255, 0, 0, 1⟩) none) =
      "rgb(" ++ intStr 255 ++ ", " ++ intStr 0 ++ ", " ++ intStr 0 ++ ")" :=
  ⟨⟨by norm_num, (c10_solid_fill_opacity ⟨255, 0, 0, 1⟩ (1 / 2)).1 (by norm_num)⟩,
   (c10_solid_fill_opacity ⟨255, 0, 0, 1⟩ 0).2.1 rfl⟩

/-! ### C3: child-count truncation -/

theorem normalizeChildren_eq_take_map (cs : List SceneNode) (b d : ℕ) :
    normalizeChildren cs b d = (cs.take b).map (fun c => normalizeNodeWithDepth c d) := by
  induction cs generalizing b with
  | nil => cases b <;> rfl
  | cons c tl ih =>
    cases b with
    | zero => rfl
    | succ b => simp [normalizeChildren, List.take_succ_cons, ih]

/-- C3: a container node with more than 1000 children normalizes to an IR
container whose children are the normalized first 1000 original children in
their original order (exactly 1000 of them), and the truncation is recorded
as a diagnostic of the (successfully returned) result, not an error. -/
theorem c3_children_truncated_to_1000 (t : String) (p : SceneProps) (cs : List SceneNode)
    (hc : isContainerType t = true) (hlen : cs.length > 1000) :
    (normalizeNode (.mk t p (some cs))).1.children =
      (cs.take 1000).map (fun c => (normalizeNodeWithDepth c 1).1) ∧
    (normalizeNode (.mk t p (some cs))).1.children.length = 1000 ∧
    Diag.tooManyChildren p.name cs.length ∈ (normalizeNode (.mk t p (some cs))).2 := by
  have hchildren :
      (normalizeNode (.mk t p (some cs))).1.children =
        (cs.take 1000).map (fun c => (normalizeNodeWithDepth c 1).1) ∧
      Diag.tooManyChildren p.name cs.length ∈ (normalizeNode (.mk t p (some cs))).2 := by
    simp only [isContainerType, Bool.or_eq_true, decide_eq_true_eq] at hc
    have hwarn : (if cs.length > MAX_CHILDREN_COUNT then
        [Diag.tooManyChildren p.name cs.length] else []) =
        [Diag.tooManyChildren p.name cs.length] := by
      rw [if_pos (by simpa [MAX_CHILDREN_COUNT] using hlen)]
    rcases hc with ((h | h) | h) | h <;> subst h <;>
      simp [normalizeNode, normalizeNodeWithDepth, sanitizeIRNode, MAX_RECURSION_DEPTH,
        normalizeChildren_eq_take_map, MAX_CHILDREN_COUNT, FigmaIRNode.children,
        hwarn, List.mem_append, Function.comp_def, hlen]
  refine ⟨hchildren.1, ?_, hchildren.2⟩
  rw [hchildren.1]
  simp [List.length_take]
  omega

/-- C3 witness: a frame with 1500 children keeps exactly the first 1000. -/
theorem c3_witness :
    isContainerType "FRAME" = true ∧ (List.replicate 1500 leafRect).length > 1000 ∧
    (normalizeNode (.mk "FRAME" (plainProps "w" "wide")
        (some (List.replicate 1500 leafRect)))).1.children.length = 1000 :=
  ⟨by decide, by simp, (c3_children_truncated_to_1000 "FRAME" (plainProps "w" "wide")
      (List.replicate 1500 leafRect) (by decide) (by simp)).2.1⟩

/-! ### C7: gradient angle derivation -/

theorem jsAtan2_one_zero : jsAtan2 (1 : ℝ) 0 = Real.pi / 2 := by
  simp [jsAtan2]

theorem jsAtan2_zero_one : jsAtan2 (0 : ℝ) 1 = 0 := by
  simp [jsAtan2]

theorem jsRoundR_ninety : jsRoundR (Real.pi / 2 * 180 / Real.pi) = 90 := by
  have h : Real.pi / 2 * 180 / Real.pi = 90 := by
    field_simp
    ring
  rw [jsRoundR, h]
  norm_num [Int.floor_eq_iff]

theorem jsRoundR_zero : jsRoundR (0 : ℝ) = 0 := by
  rw [jsRoundR]
  norm_num [Int.floor_eq_iff]

theorem gradientAngle_row_zero_one (r2 : List ℚ) (rows : List (List ℚ)) :
    gradientAngle (some ([0, 1] :: r2 :: rows)) = "90deg" := by
  have hlen : (([0, 1] : List ℚ) :: r2 :: rows).length ≥ 2 := by
    simp [List.length_cons]
  simp only [gradientAngle]
  rw [if_pos hlen]
  norm_num [List.get?]
  rw [jsAtan2_one_zero, jsRoundR_ninety]
  decide

theorem gradientAngle_row_one_zero (r2 : List ℚ) (rows : List (List ℚ)) :
    gradientAngle (some ([1, 0] :: r2 :: rows)) = "0deg" := by
  have hlen : (([1, 0] : List ℚ) :: r2 :: rows).length ≥ 2 := by
    simp [List.length_cons]
  simp only [gradientAngle]
  rw [if_pos hlen]
  norm_num [List.get?]
  rw [jsAtan2_zero_one]
  norm_num [jsRoundR, Int.floor_eq_iff]
  decide

theorem gradientAngle_none : gradientAngle none = "90deg" := rfl

/-- C7: for a linear-gradient fill, the emitted CSS angle is `atan2(b, a)`
of the transform's first row converted to degrees and rounded: first row
`[0, 1]` yields 90°, first row `[1, 0]` yields 0°, and a missing transform
defaults to 90° (top-to-bottom). -/
theorem c7_gradient_angle (stops : List FigmaGradientStop) (opacity : Option ℚ)
    (r2 : List ℚ) (rows : List (List ℚ)) (hs : stops ≠ []) :
    (fillToCss (.gradient ⟨"linear", stops, some ([0, 1] :: r2 :: rows)⟩ opacity) =
      "linear-gradient(90deg, " ++
        String.intercalate ", " (stops.map (gradStopCss (opacity.getD 1))) ++ ")") ∧
    (fillToCss (.gradient ⟨"linear", stops, some ([1, 0] :: r2 :: rows)⟩ opacity) =
      "linear-gradient(0deg, " ++
        String.intercalate ", " (stops.map (gradStopCss (opacity.getD 1))) ++ ")") ∧
    (fillToCss (.gradient ⟨"linear", stops, none⟩ opacity) =
      "linear-gradient(90deg, " ++
        String.intercalate ", " (stops.map (gradStopCss (opacity.getD 1))) ++ ")") := by
  refine ⟨?_, ?_, ?_⟩ <;>
    simp [fillToCss, hs, gradientAngle_row_zero_one, gradientAngle_row_one_zero,
      gradientAngle_none]

/-- C7 witness: a single-stop linear gradient at each of the three transform
shapes of the theorem. -/
theorem c7_witness :
    ([⟨0, ⟨255, 0, 0, 1⟩⟩] : List FigmaGradientStop) ≠ [] ∧
    fillToCss (.gradient ⟨"linear", [⟨0, ⟨255, 0, 0, 1⟩⟩], some [[0, 1], [1, 0]]⟩ none) =
      "linear-gradient(90deg, " ++
        String.intercalate ", "
          (([⟨0, ⟨255, 0, 0, 1⟩⟩] : List FigmaGradientStop).map
            (gradStopCss ((none : Option ℚ).getD 1))) ++ ")" :=
  ⟨List.cons_ne_nil _ _,
   (c7_gradient_angle [⟨0, ⟨255, 0, 0, 1⟩⟩] none [1, 0] [] (List.cons_ne_nil _ _)).1⟩

/-! ### C2: depth cutoff -/

theorem sceneInd (motive : SceneNode → Prop)
    (h : ∀ t p cs?, (∀ cs, cs? = some cs → ∀ c ∈ cs, motive c) → motive (.mk t p cs?)) :
    ∀ n, motive n
  | .mk t p cs? => h t p cs? (fun cs hcs c hc => sceneInd motive h c)
termination_by n => sizeOf n
decreasing_by
  simp_wf
  subst hcs
  have h1 := List.sizeOf_lt_of_mem hc
  simp only [SceneNode.mk.sizeOf_spec, Option.some.sizeOf_spec]
  omega

theorem goodTreeList_mem (l : List SceneNode) (hl : goodTreeList l = true) :
    ∀ c ∈ l, goodTree c = true := by
  induction l with
  | nil => intro c hc; simp at hc
  | cons a tl ih =>
    rw [goodTreeList, Bool.and_eq_true] at hl
    intro c hc
    rcases List.mem_cons.mp hc with h | h
    · exact h ▸ hl.1
    · exact ih hl.2 c h

theorem goodTree_some (t : String) (p : SceneProps) (cs : List SceneNode) :
    goodTree (.mk t p (some cs)) = true ↔
      cs.length ≤ 1000 ∧ (cs.isEmpty = true ∨ isContainerType t = true) ∧
        goodTreeList cs = true := by
  simp [goodTree, MAX_CHILDREN_COUNT, Bool.and_eq_true, Bool.or_eq_true, decide_eq_true_eq,
    and_assoc]

theorem norm_children_container (t : String) (p : SceneProps) (cs? : Option (List SceneNode))
    (d : ℕ) (hd : ¬ d > MAX_RECURSION_DEPTH)
    (ht : t = "FRAME" ∨ t = "COMPONENT" ∨ t = "INSTANCE" ∨ t = "GROUP") :
    (normalizeNodeWithDepth (.mk t p cs?) d).1.children =
      ((cs?.getD []).take 1000).map (fun c => (normalizeNodeWithDepth c (d + 1)).1) := by
  rcases ht with h | h | h | h <;> subst h <;> cases cs? <;>
    simp [normalizeNodeWithDepth, hd, normalizeChildren_eq_take_map, MAX_CHILDREN_COUNT,
      FigmaIRNode.children, Function.comp_def]

theorem norm_children_noncontainer (t : String) (p : SceneProps) (cs? : Option (List SceneNode))
    (d : ℕ) (hd : ¬ d > MAX_RECURSION_DEPTH) (hnc : isContainerType t = false) :
    (normalizeNodeWithDepth (.mk t p cs?) d).1.children = [] := by
  have hn : ¬ (t = "FRAME" ∨ t = "COMPONENT" ∨ t = "INSTANCE") ∧ ¬ (t = "GROUP") := by
    simp only [isContainerType, Bool.or_eq_false_iff, decide_eq_false_iff_not] at hnc
    exact ⟨fun h => by rcases h with h | h | h <;> simp [h] at hnc, hnc.2⟩
  by_cases h2 : t = "TEXT"
  · subst h2
    simp [normalizeNodeWithDepth, hd, FigmaIRNode.children]
  · by_cases h3 : t = "VECTOR" ∨ t = "STAR" ∨ t = "POLYGON" ∨ t = "ELLIPSE" ∨ t = "RECTANGLE"
    · rcases h3 with h | h | h | h | h <;> subst h <;>
        simp [normalizeNodeWithDepth, hd, FigmaIRNode.children]
    · rw [normalizeNodeWithDepth.eq_def]
      simp only [if_neg hd, if_neg hn.1, if_neg h2, if_neg h3, if_neg hn.2]
      rfl

theorem norm_children_eq (t : String) (p : SceneProps) (cs? : Option (List SceneNode))
    (d : ℕ) (hd : d ≤ 100) :
    (normalizeNodeWithDepth (.mk t p cs?) d).1.children =
      if isContainerType t then
        ((cs?.getD []).take 1000).map (fun c => (normalizeNodeWithDepth c (d + 1)).1)
      else [] := by
  have hng : ¬ d > MAX_RECURSION_DEPTH := by
    simp only [MAX_RECURSION_DEPTH]
    omega
  by_cases hc : isContainerType t = true
  · rw [if_pos hc]
    refine norm_children_container t p cs? d hng ?_
    simpa [isContainerType, Bool.or_eq_true, decide_eq_true_eq, or_assoc] using hc
  · rw [if_neg hc]
    exact norm_children_noncontainer t p cs? d hng (by simpa using hc)

theorem irDepth_eq_children (n : FigmaIRNode) : irDepth n = irDepthList n.children := by
  cases n with
  | mk b e cs => simp [irDepth, FigmaIRNode.children]

theorem norm_depth (n : SceneNode) :
    goodTree n = true → ∀ d, d ≤ 101 →
      irDepth (normalizeNodeWithDepth n d).1 = min (sgDepth n) (101 - d) := by
  induction n using sceneInd with
  | h t p cs? ih =>
    intro hg d hd
    by_cases hdep : d > 100
    · have hd101 : d = 101 := by omega
      subst hd101
      simp only [normalizeNodeWithDepth, MAX_RECURSION_DEPTH]
      rw [if_pos (by omega)]
      simp [irDepth, irDepthList]
    · have hdle : d ≤ 100 := by omega
      have hch := norm_children_eq t p cs? d hdle
      rw [irDepth_eq_children, hch]
      cases cs? with
      | none =>
        have : sgDepth (SceneNode.mk t p none) = 0 := rfl
        rw [this]
        split <;> simp [irDepthList]
      | some cs =>
        obtain ⟨hlen, hcont, hlist⟩ := (goodTree_some t p cs).mp hg
        have hsg : sgDepth (SceneNode.mk t p (some cs)) = sgDepthList cs := rfl
        rw [hsg]
        have key : ∀ l : List SceneNode,
            (∀ c ∈ l, ∀ d', d' ≤ 101 →
              irDepth (normalizeNodeWithDepth c d').1 = min (sgDepth c) (101 - d')) →
            irDepthList (l.map (fun c => (normalizeNodeWithDepth c (d + 1)).1)) =
              min (sgDepthList l) (101 - d) := by
          intro l
          induction l with
          | nil =>
            intro _
            simp only [List.map_nil, irDepthList, sgDepthList]
            omega
          | cons a tl ihl =>
            intro hdep'
            have ha := hdep' a (List.mem_cons_self a tl) (d + 1) (by omega)
            have htl := ihl (fun c hc => hdep' c (List.mem_cons_of_mem a hc))
            simp only [List.map_cons, irDepthList, sgDepthList, ha, htl]
            omega
        by_cases hcz : cs = []
        · subst hcz
          split <;> simp [irDepthList, sgDepthList]
        · have hcont' : isContainerType t = true := by
            rcases hcont with h | h
            · simp only [List.isEmpty_iff] at h
              exact absurd h hcz
            · exact h
          rw [if_pos hcont']
          simp only [Option.getD_some]
          rw [List.take_of_length_le hlen]
          exact key cs (fun c hc d' hd' =>
            ih cs rfl c hc (goodTreeList_mem _ hlist c hc) d' hd')

theorem norm_path (path : List ℕ) :
    ∀ (n m : SceneNode) (d : ℕ), goodTree n = true → d + path.length = 101 →
      nodeAt n path = some m →
      irNodeAt (normalizeNodeWithDepth n d).1 path = some (cutoffLeaf m) := by
  induction path with
  | nil =>
    intro n m d hg hd hm
    have hd101 : d = 101 := by simpa using hd
    subst hd101
    cases n with
    | mk t p cs? =>
      have hmn : m = SceneNode.mk t p cs? := by
        simpa [nodeAt] using hm.symm
      subst hmn
      simp only [normalizeNodeWithDepth, MAX_RECURSION_DEPTH]
      rw [if_pos (by omega)]
      simp [irNodeAt, cutoffLeaf, SceneNode.nodeType, SceneNode.props]
  | cons i p' ih =>
    intro n m d hg hd hm
    cases n with
    | mk t pr cs? =>
      cases cs? with
      | none => simp [nodeAt] at hm
      | some cs =>
        simp only [nodeAt] at hm
        cases hget : cs.get? i with
        | none => rw [hget] at hm; simp at hm
        | some c =>
          rw [hget] at hm
          have hilen : i < cs.length := (List.get?_eq_some.mp hget).1
          have hd' : d ≤ 100 := by
            simp only [List.length_cons] at hd
            omega
          obtain ⟨hlen, hcont, hlist⟩ := (goodTree_some t pr cs).mp hg
          have hcont' : isContainerType t = true := by
            rcases hcont with h | h
            · rw [List.isEmpty_iff] at h
              subst h
              simp at hilen
            · exact h
          have hch := norm_children_eq t pr (some cs) d hd'
          rw [if_pos hcont'] at hch
          simp only [Option.getD_some] at hch
          cases hn : (normalizeNodeWithDepth (.mk t pr (some cs)) d).1 with
          | mk b e ch =>
            rw [hn] at hch
            simp only [FigmaIRNode.children] at hch
            subst hch
            simp only [irNodeAt]
            have hgi : ((cs.take 1000).map
                (fun c => (normalizeNodeWithDepth c (d + 1)).1)).get? i =
                some ((normalizeNodeWithDepth c (d + 1)).1) := by
              rw [List.get?_map, List.get?_take (by omega : i < 1000), hget]
              rfl
            rw [hgi]
            exact ih c m (d + 1)
              (goodTreeList_mem cs hlist c (List.get?_mem hget))
              (by simp only [List.length_cons] at hd; omega) hm

/-- C2 (amended): for every scene tree in which every node has at most 1000
children and whose depth exceeds 100, the normalized IR tree has maximum
depth exactly 101 (the root at depth 0): nodes are fully normalized down to
depth 100, the recursion halts at depth counter 101, and every node at
depth 101 is returned as a leaf carrying the base-normalized attributes
(id, name, geometry, paints, effects and the other base fields) of the
original node at that position — not a corrupted or incomplete record. -/
theorem c2_depth_cutoff (n : SceneNode) (hg : goodTree n = true) (hdeep : sgDepth n > 100) :
    irDepth (normalizeNode n).1 = 101 ∧
    ∀ (path : List ℕ) (m : SceneNode), path.length = 101 → nodeAt n path = some m →
      irNodeAt (normalizeNode n).1 path = some (cutoffLeaf m) := by
  have h1 : (normalizeNode n).1 = (normalizeNodeWithDepth n 0).1 := rfl
  constructor
  · rw [h1, norm_depth n hg 0 (by omega)]
    omega
  · intro path m hp hm
    rw [h1]
    exact norm_path path n m 0 hg (by omega) hm

theorem sgDepth_chain (k : ℕ) : sgDepth (chainFrame k) = k := by
  induction k with
  | zero => rfl
  | succ k ih => simp [chainFrame, sgDepth, sgDepthList, ih]

theorem goodTree_chain (k : ℕ) : goodTree (chainFrame k) = true := by
  induction k with
  | zero => rfl
  | succ k ih => simp [chainFrame, goodTree, goodTreeList, isContainerType, MAX_CHILDREN_COUNT, ih]

/-- C2 counterexample: a frame chain of depth 101 (102 nodes) exceeds the
depth bound, and the normalized IR tree has depth 101, not the exactly-100
maximum depth the claim states. -/
theorem c2_counterexample_chain_101 :
    sgDepth (chainFrame 101) > 100 ∧ irDepth (normalizeNode (chainFrame 101)).1 ≠ 100 := by
  have h1 : sgDepth (chainFrame 101) = 101 := sgDepth_chain 101
  have h2 := norm_depth (chainFrame 101) (goodTree_chain 101) 0 (by omega)
  have h3 : (normalizeNode (chainFrame 101)).1 = (normalizeNodeWithDepth (chainFrame 101) 0).1 := rfl
  constructor
  · omega
  · rw [h3, h2, h1]
    omega

/-- C2 witness: the amended theorem applied to the 102-node frame chain. -/
theorem c2_witness :
    goodTree (chainFrame 101) = true ∧ sgDepth (chainFrame 101) > 100 ∧
    irDepth (normalizeNode (chainFrame 101)).1 = 101 :=
  ⟨goodTree_chain 101, by rw [sgDepth_chain]; omega,
   (c2_depth_cutoff (chainFrame 101) (goodTree_chain 101)
      (by rw [sgDepth_chain]; omega)).1⟩

/-! ### C4: sibling identifier uniqueness -/

theorem digitsVal_append_digit (l : List Char) (c : Char) :
    digitsVal (l ++ [c]) = digitsVal l * 10 + (c.toNat - 48) := by
  simp [digitsVal, List.foldl_append]

theorem digitsVal_natStrAux (fuel n : ℕ) (h : n < fuel) :
    digitsVal (natStrAux fuel n) = n := by
  induction fuel generalizing n with
  | zero => omega
  | succ fuel ih =>
    by_cases h10 : n < 10
    · have hsmall : ∀ m : ℕ, m < 10 → digitsVal [Nat.digitChar m] = m := by decide
      simp only [natStrAux, if_pos h10]
      exact hsmall n h10
    · have hdigit : ∀ m : ℕ, m < 10 → (Nat.digitChar m).toNat - 48 = m := by decide
      have hdiv : n / 10 < fuel := by
        have := Nat.div_lt_self (show 0 < n by omega) (show 1 < 10 by omega)
        omega
      simp only [natStrAux, if_neg h10]
      rw [digitsVal_append_digit, ih (n / 10) hdiv, hdigit (n % 10) (Nat.mod_lt n (by omega))]
      omega

theorem natStr_inj {a b : ℕ} (h : natStr a = natStr b) : a = b := by
  have hl : natStrAux (a + 1) a = natStrAux (b + 1) b := congrArg String.data h
  have ha := digitsVal_natStrAux (a + 1) a (by omega)
  have hb := digitsVal_natStrAux (b + 1) b (by omega)
  rw [← ha, ← hb, hl]

theorem string_append_cancel_left {p s1 s2 : String} (h : p ++ s1 = p ++ s2) : s1 = s2 := by
  have hd : p.data ++ s1.data = p.data ++ s2.data := by
    have h1 : (p ++ s1).data = (p ++ s2).data := by rw [h]
    simpa [String.data_append] using h1
  cases s1
  cases s2
  exact congrArg String.mk (List.append_cancel_left hd)

theorem generateClassName_inj_of_name_eq (n1 n2 : FigmaIRNode) (c1 c2 : ℕ)
    (hn : n1.name = n2.name) (hc : c1 ≠ c2) :
    (generateClassName n1 c1).1 ≠ (generateClassName n2 c2).1 := by
  intro h
  simp only [generateClassName, hn] at h
  have h2 := string_append_cancel_left (p :=
    (if toLowerStr ⟨stripEdgeDashes (collapseDashPairs (dashChars n2.name.data))⟩ = "" then
      "element"
    else toLowerStr ⟨stripEdgeDashes (collapseDashPairs (dashChars n2.name.data))⟩) ++ "-")
    (by simpa [String.append_assoc] using h)
  exact hc (by simpa using natStr_inj h2)

theorem genChildrenHTML_counter_ge (cs : List FigmaIRNode) :
    ∀ (parent : FigmaIRNode) (depth : ℕ) (st : HState),
      (∀ c ∈ cs, ∀ p d s, (generateHTMLElement c p d s).2.counter ≥ s.counter + 1) →
      (genChildrenHTML cs parent depth st).2.counter ≥ st.counter := by
  induction cs with
  | nil =>
    intro parent depth st _
    simp [genChildrenHTML]
  | cons c tl ih =>
    intro parent depth st hall
    simp only [genChildrenHTML]
    have h1 := hall c (List.mem_cons_self c tl) (some parent) depth st
    have h2 := ih parent depth (generateHTMLElement c (some parent) depth st).2
      (fun c hc p d s => hall c (List.mem_cons_of_mem _ hc) p d s)
    omega

theorem irInd (motive : FigmaIRNode → Prop)
    (h : ∀ b e cs, (∀ c ∈ cs, motive c) → motive (.mk b e cs)) :
    ∀ n, motive n
  | .mk b e cs => h b e cs (fun c hc => irInd motive h c)
termination_by n => sizeOf n
decreasing_by
  simp_wf
  have h1 := List.sizeOf_lt_of_mem hc
  omega

theorem generateHTMLElement_counter_ge (n : FigmaIRNode) :
    ∀ (parent : Option FigmaIRNode) (depth : ℕ) (st : HState),
      (generateHTMLElement n parent depth st).2.counter ≥ st.counter + 1 := by
  induction n using irInd with
  | h b e cs ih =>
    intro parent depth st
    simp only [generateHTMLElement]
    split
    · exact Nat.le.refl
    · split
      · exact Nat.le.refl
      · exact genChildrenHTML_counter_ge cs (FigmaIRNode.mk b e cs) (depth + 1)
          ⟨(generateClassName (FigmaIRNode.mk b e cs) st.counter).2,
            if generateNodeStyles (FigmaIRNode.mk b e cs) parent parent.isNone ≠ "" then
              mapSet st.css (generateClassName (FigmaIRNode.mk b e cs) st.counter).1
                (generateNodeStyles (FigmaIRNode.mk b e cs) parent parent.isNone)
            else st.css⟩
          (fun c hc p d s => ih c hc p d s)

theorem entrySt_zero (cs : List FigmaIRNode) (parent : FigmaIRNode) (depth : ℕ) (st : HState) :
    entrySt cs parent depth st 0 = st := rfl

theorem entrySt_cons_succ (c : FigmaIRNode) (tl : List FigmaIRNode) (parent : FigmaIRNode)
    (depth : ℕ) (st : HState) (k : ℕ) :
    entrySt (c :: tl) parent depth st (k + 1) =
      entrySt tl parent depth (generateHTMLElement c (some parent) depth st).2 k := by
  simp [entrySt, List.take_succ_cons, genChildrenHTML]

theorem entrySt_counter_succ (cs : List FigmaIRNode) (parent : FigmaIRNode) (depth : ℕ) :
    ∀ (st : HState) (k : ℕ) (nk : FigmaIRNode), cs.get? k = some nk →
      (entrySt cs parent depth st k).counter + 1 ≤ (entrySt cs parent depth st (k + 1)).counter := by
  induction cs with
  | nil => intro st k nk h; simp at h
  | cons c tl ih =>
    intro st k nk h
    cases k with
    | zero =>
      rw [entrySt_cons_succ, entrySt_zero, entrySt_zero]
      exact generateHTMLElement_counter_ge c (some parent) depth st
    | succ k =>
      rw [entrySt_cons_succ, entrySt_cons_succ]
      exact ih _ k nk (by simpa using h)

theorem entrySt_counter_mono (cs : List FigmaIRNode) (parent : FigmaIRNode) (depth : ℕ)
    (st : HState) (i j : ℕ) (hij : i < j) (hj : j ≤ cs.length) :
    (entrySt cs parent depth st i).counter < (entrySt cs parent depth st j).counter := by
  induction j with
  | zero => omega
  | succ j ihj =>
    have hjlen : j < cs.length := by omega
    obtain ⟨nj, hnj⟩ : ∃ nj, cs.get? j = some nj :=
      ⟨cs.get ⟨j, hjlen⟩, List.get?_eq_get hjlen⟩
    have hstep := entrySt_counter_succ cs parent depth st j nj hnj
    rcases Nat.lt_or_ge i j with h | h
    · have := ihj h (by omega)
      omega
    · have hieq : i = j := by omega
      subst hieq
      omega

theorem genChildrenHTML_get (cs : List FigmaIRNode) (parent : FigmaIRNode) (depth : ℕ) :
    ∀ (st : HState) (k : ℕ) (nk : FigmaIRNode), cs.get? k = some nk →
      (genChildrenHTML cs parent depth st).1.get? k =
        some (generateHTMLElement nk (some parent) depth (entrySt cs parent depth st k)).1 := by
  induction cs with
  | nil => intro st k nk h; simp at h
  | cons c tl ih =>
    intro st k nk h
    cases k with
    | zero =>
      have hc : c = nk := by simpa using h
      subst hc
      simp [genChildrenHTML, entrySt_zero]
    | succ k =>
      rw [entrySt_cons_succ]
      simp only [genChildrenHTML, List.get?_cons_succ]
      exact ih _ k nk (by simpa using h)

/-- C4 (amended): in the HTML serializer, the `k`-th child element emitted
inside a container is produced from the state reached after its earlier
siblings, and two siblings with identical `name` fields always receive
distinct class names, because `generateClassName` appends the strictly
increasing global counter.  (The claim fails for the Vue serializer, whose
class names carry no counter — see the counterexample.) -/
theorem c4_html_sibling_classes_distinct (cs : List FigmaIRNode) (parent : FigmaIRNode)
    (depth : ℕ) (st : HState) (i j : ℕ) (ni nj : FigmaIRNode)
    (hij : i < j) (hi : cs.get? i = some ni) (hj : cs.get? j = some nj)
    (hname : ni.name = nj.name) :
    (genChildrenHTML cs parent depth st).1.get? i =
      some (generateHTMLElement ni (some parent) depth (entrySt cs parent depth st i)).1 ∧
    (genChildrenHTML cs parent depth st).1.get? j =
      some (generateHTMLElement nj (some parent) depth (entrySt cs parent depth st j)).1 ∧
    (generateClassName ni (entrySt cs parent depth st i).counter).1 ≠
      (generateClassName nj (entrySt cs parent depth st j).counter).1 := by
  refine ⟨genChildrenHTML_get cs parent depth st i ni hi,
    genChildrenHTML_get cs parent depth st j nj hj, ?_⟩
  have hjlen : j ≤ cs.length := by
    have := (List.get?_eq_some.mp hj).1
    omega
  have hmono := entrySt_counter_mono cs parent depth st i j hij hjlen
  exact generateClassName_inj_of_name_eq ni nj _ _ hname (by omega)

/-- C4 counterexample: the Vue serializer's template gives the two
identically named sibling text nodes the identical class name `foo` — the
generated identifiers are not distinct. -/
theorem c4_counterexample_vue_sibling_classes_collide :
    fooTextA.name = fooTextB.name ∧
    generateVueTemplate twinFrame =
      "  <div class=\"card\">\n  <p class=\"foo\">a</p>\n  <p class=\"foo\">b</p>\n  </div>" := by
  constructor <;> rfl

/-- C4 witness: the amended theorem applied to the two identically named
text children of the twin frame. -/
theorem c4_witness :
    0 < 1 ∧ [fooTextA, fooTextB].get? 0 = some fooTextA ∧
    [fooTextA, fooTextB].get? 1 = some fooTextB ∧ fooTextA.name = fooTextB.name ∧
    (generateClassName fooTextA (entrySt [fooTextA, fooTextB] twinFrame 3 ⟨0, []⟩ 0).counter).1 ≠
      (generateClassName fooTextB (entrySt [fooTextA, fooTextB] twinFrame 3 ⟨0, []⟩ 1).counter).1 :=
  ⟨by decide, rfl, rfl, rfl,
   (c4_html_sibling_classes_distinct [fooTextA, fooTextB] twinFrame 3 ⟨0, []⟩ 0 1
      fooTextA fooTextB (by decide) rfl rfl rfl).2.2⟩
